import Mathlib

/-!
Verification development for the Crown-Fight room/session server
(`src/server.py`).  The Python handlers are shallowly embedded as pure
Lean functions: MongoDB collections become lists of documents, Python
dicts become association lists, sockets become an explicit list of
outbound messages, and the per-connection session map becomes an
association list from connection id to session record.
-/

namespace CrownFight

/-! ## Quiz/Role Resolver (`calculate_role`, server.py 701-730) -/

/-- The six quiz answer letters A..F. -/
inductive Letter : Type
  | A | B | C | D | E | F
deriving DecidableEq, Repr, Fintype

/-- Insertion order of the `option_count` dict in `calculate_role`. -/
def letters : List Letter := [.A, .B, .C, .D, .E, .F]

/-- The fixed `role_mapping` table of `calculate_role`. -/
def role_mapping : Letter → String
  | .A => "Barbarian / Monk (Melee DPS)"
  | .B => "Fighter/Knight (Tank)"
  | .C => "Rogue / Scout-Ranger (Stealth/Agile)"
  | .D => "Gunman / Ranger (Ranged Physical)"
  | .E => "Bard / Priest / Alchemist (Support/Healing)"
  | .F => "Wizard / Druids / Necromancer / Elementalist / Summoner / Sorcerer / Warlock (Magical Combatants)"

/-- `option_count[l]`: number of occurrences of letter `l` in `answers`. -/
def option_count (answers : List Letter) (l : Letter) : Nat :=
  answers.count l

/-- Python `max(iterable, key=f)`: first element attaining the maximum of
`f`, scanning left to right and replacing only on a strictly larger key. -/
def pyMaxKey (f : Letter → Nat) : List Letter → Letter → Letter
  | [], best => best
  | x :: xs, best => pyMaxKey f xs (if f x > f best then x else best)

/-- `max_option = max(option_count, key=option_count.get)` in
`calculate_role`: Python `max` scans the dict keys in insertion order
A,B,C,D,E,F, starting from the first key and replacing the current best
only on a strictly larger count. -/
def maxOption (answers : List Letter) : Letter :=
  pyMaxKey (option_count answers) [Letter.B, Letter.C, Letter.D, Letter.E, Letter.F] Letter.A

/-- `tied_options`: the letters (in A..F order) whose count equals
`max_count = option_count[max_option]`. -/
def tiedOptions (answers : List Letter) : List Letter :=
  letters.filter (fun l => option_count answers l = option_count answers (maxOption answers))

/-- The letter `calculate_role` selects: `tied_options[0]` when several
letters share the maximal count, else `max_option`
(mirrors server.py 712-728). -/
def chooseOption (answers : List Letter) : Letter :=
  if (tiedOptions answers).length > 1 then (tiedOptions answers).headD Letter.A
  else maxOption answers

/-- `calculate_role` (server.py 701-730): tally the five answers and map
the winning letter through the fixed role table. -/
def calculate_role (answers : List Letter) : String :=
  role_mapping (chooseOption answers)

/-- Specification-side definition, written from the spec's words for
comparison with `chooseOption`: "the winner is the letter with the
highest count; ties are broken by lexical order A < B < C < D < E < F".
It returns the first letter in A..F order whose count is at least every
other letter's count. -/
def specWinner (answers : List Letter) : Letter :=
  (letters.filter (fun l =>
    letters.all (fun l2 => option_count answers l2 ≤ option_count answers l))).headD Letter.A

/-! ## Python dict / collection primitives -/

/-- Dict lookup `m.get(k)` on an association list. -/
def alookup (k : String) : List (String × α) → Option α
  | [] => none
  | (k2, v) :: rest => if k2 = k then some v else alookup k rest

/-- Dict assignment `m[k] = v`: replace the entry for `k` in place, or
append a fresh entry. -/
def aset (k : String) (v : α) : List (String × α) → List (String × α)
  | [] => [(k, v)]
  | (k2, v2) :: rest => if k2 = k then (k, v) :: rest else (k2, v2) :: aset k v rest

/-- Dict deletion `del m[k]` (dict keys are unique, so dropping every
entry with key `k` coincides with deleting the entry). -/
def aerase (k : String) : List (String × α) → List (String × α)
  | [] => []
  | (k2, v) :: rest => if k2 = k then aerase k rest else (k2, v) :: aerase k rest

/-! ## Data model: rooms, users, sessions (server.py 221-243, 69-77) -/

/-- A room document as built by `handle_create_room` (server.py 229-243)
and mutated by the room handlers. -/
structure Room where
  room_id : String
  creator : String
  players : List String
  player_characters : List (String × String)
  player_answers : List (String × List (Option String))
  player_roles : List (String × String)
  character_locked : List (String × Bool)
  is_active : Bool
  created_at : Nat
  max_players : Nat
  game_started : Bool
  game_finished : Bool
  current_question : Nat
deriving DecidableEq, Repr

/-- The fields of a user document touched by the room handlers. -/
structure UserRec where
  username : String
  last_room : Option String
  character : Option String
deriving DecidableEq, Repr

/-- A per-connection session entry of `self.clients` (server.py 72-77). -/
structure ClientState where
  username : Option String
  room_id : Option String
  character_locked : Bool
deriving DecidableEq, Repr

/-- The room document `handle_create_room` builds (server.py 229-243):
membership is just the creator and every per-player map starts empty. -/
def initRoom (rid creator : String) (ts : Nat) : Room :=
  { room_id := rid, creator := creator, players := [creator],
    player_characters := [], player_answers := [], player_roles := [],
    character_locked := [], is_active := true, created_at := ts,
    max_players := 4, game_started := false, game_finished := false,
    current_question := 0 }

/-! ## Room-level operations (the handler bodies once the room document
has been fetched) -/

/-- Error taxonomy: each constructor corresponds to one `send_error`
call site in server.py. -/
inductive SErr : Type
  | characterTaken
  | characterAlreadyLocked
  | noCharacterSelected
  | alreadyMember
  | roomFull
  | roomNotFound
  | roomInactive
  | notCreator
  | notLoggedIn
  | notInRoom
  | missingData
  | dbError
deriving DecidableEq, Repr

/-- Body of `handle_select_character` (server.py 499-521): reject if the
character appears among `player_characters.values()` (the check does not
exempt the requester), then reject if the requester's own lock flag is
set, else assign the character. -/
def select_character_room (room : Room) (username character : String) : Except SErr Room :=
  if character ∈ room.player_characters.map Prod.snd then
    .error .characterTaken
  else if (alookup username room.character_locked).getD false then
    .error .characterAlreadyLocked
  else
    .ok { room with player_characters := aset username character room.player_characters }

/-- Body of `handle_lock_character` (server.py 560-577): reject when the
player has no selected character, else set the lock flag. -/
def lock_character_room (room : Room) (username : String) : Except SErr Room :=
  if (alookup username room.player_characters).isNone then
    .error .noCharacterSelected
  else
    .ok { room with character_locked := aset username true room.character_locked }

/-- Body of `handle_join_room` (server.py 296-313): active check, then
already-member check, then capacity check, then append. -/
def join_room_core (room : Room) (username : String) : Except SErr Room :=
  if !room.is_active then
    .error .roomInactive
  else if username ∈ room.players then
    .error .alreadyMember
  else if room.players.length ≥ room.max_players then
    .error .roomFull
  else
    .ok { room with players := room.players ++ [username] }

/-- Body of `handle_leave_room` (server.py 610-622): remove the player
from membership (first occurrence, guarded as in the source) and delete
the player's character and lock entries.  Answers and roles are kept. -/
def leave_room_core (room : Room) (username : String) : Room :=
  { room with
    players := if username ∈ room.players then room.players.erase username else room.players,
    player_characters := aerase username room.player_characters,
    character_locked := aerase username room.character_locked }

/-- Python truthiness of an answer slot: `None` and `""` are falsy. -/
def optTruthy : Option String → Bool
  | none => false
  | some s => s ≠ ""

/-- The `while len(...) <= question_index: append(None)` padding loop of
`handle_submit_answer` (server.py 432-433). -/
def padAnswers (l : List (Option String)) (qi : Nat) : List (Option String) :=
  l ++ List.replicate (qi + 1 - l.length) none

/-- `calculate_role` as called on the raw stored answer strings: a
string outside A..F raises `KeyError` in `option_count[answer]`, which
the handler's `except` turns into a generic error. -/
def parseLetter : String → Option Letter
  | "A" => some .A
  | "B" => some .B
  | "C" => some .C
  | "D" => some .D
  | "E" => some .E
  | "F" => some .F
  | _ => none

/-- `calculate_role` on raw strings: `none` models the `KeyError`. -/
def calculate_role_str (answers : List String) : Option String :=
  (answers.mapM parseLetter).map calculate_role

/-- Result of the room-document part of `handle_submit_answer`. -/
structure SubmitOutcome where
  room : Room
  roleAssigned : Option String
  keyError : Bool
deriving DecidableEq, Repr

/-- Body of `handle_submit_answer` (server.py 426-478): write the answer
at `question_index` (padding with `None`), then, when the player's list
has length exactly 5 with every slot truthy, compute and store the role. -/
def submit_answer_room (room : Room) (username : String) (qi : Nat) (answer : String) :
    SubmitOutcome :=
  let lst := (alookup username room.player_answers).getD []
  let lst := (padAnswers lst qi).set qi (some answer)
  let room1 := { room with player_answers := aset username lst room.player_answers }
  if lst.length = 5 ∧ lst.all optTruthy then
    match calculate_role_str (lst.map (fun o => o.getD "")) with
    | some role =>
        { room := { room1 with player_roles := aset username role room1.player_roles },
          roleAssigned := some role, keyError := false }
    | none => { room := room1, roleAssigned := none, keyError := true }
  else
    { room := room1, roleAssigned := none, keyError := false }

/-- Body of `handle_start_game` (server.py 380-393): only the creator may
start; on success set the started flag and reset the question pointer. -/
def start_game_room (room : Room) (username : String) : Except SErr Room :=
  if room.creator ≠ username then
    .error .notCreator
  else
    .ok { room with game_started := true, current_question := 0 }

/-! ## Room lifecycle as a step relation -/

/-- One room-scoped request, as dispatched by `process_message`. -/
inductive RoomOp : Type
  | join (u : String)
  | leave (u : String)
  | select (u c : String)
  | lock (u : String)
  | submit (u : String) (qi : Nat) (ans : String)
  | start (u : String)
deriving DecidableEq, Repr

/-- Effect of one request on a single room document.  A handler error
leaves the document unchanged; `none` means the room was deleted because
its last member left (server.py 624-628). -/
def roomStep (room : Room) : RoomOp → Option Room
  | .join u =>
      match join_room_core room u with
      | .ok r => some r
      | .error _ => some room
  | .leave u =>
      let r := leave_room_core room u
      if r.players.isEmpty then none else some r
  | .select u c =>
      match select_character_room room u c with
      | .ok r => some r
      | .error _ => some room
  | .lock u =>
      match lock_character_room room u with
      | .ok r => some r
      | .error _ => some room
  | .submit u qi ans =>
      if ans = "" then some room else some (submit_answer_room room u qi ans).room
  | .start u =>
      match start_game_room room u with
      | .ok r => some r
      | .error _ => some room

/-- Run a list of requests against a room, stopping if it is deleted. -/
def runOps (room : Room) : List RoomOp → Option Room
  | [] => some room
  | op :: ops =>
      match roomStep room op with
      | none => none
      | some r => runOps r ops

/-- Run a list of `submit_answer` calls by one player against a room;
the boolean records whether any call assigned a role. -/
def runSubmits (u : String) : Room → List (Nat × String) → Room × Bool
  | room, [] => (room, false)
  | room, (qi, ans) :: rest =>
      let o := submit_answer_room room u qi ans
      let r := runSubmits u o.room rest
      (r.1, r.2 || o.roleAssigned.isSome)

/-- Room documents reachable from creation through the room handlers. -/
inductive ReachableRoom : Room → Prop
  | init (rid creator : String) (ts : Nat) : ReachableRoom (initRoom rid creator ts)
  | step (room : Room) (op : RoomOp) (room2 : Room) :
      ReachableRoom room → roomStep room op = some room2 → ReachableRoom room2

/-- Invariant carried by every reachable room document. -/
def RoomInv (room : Room) : Prop :=
  room.players.length ≤ room.max_players ∧ room.max_players = 4 ∧
    room.players.Nodup ∧ room.is_active = true

/-! ## Server state: database collections, in-memory mirror, sessions -/

/-- The whole mutable state a handler can touch: the two Mongo
collections (`rooms_collection`, `users_collection`), the in-memory
mirror `self.rooms`, and the session map `self.clients`. -/
structure ServerState where
  db_rooms : List Room
  db_users : List UserRec
  mem_rooms : List Room
  clients : List (String × ClientState)
deriving DecidableEq, Repr

/-- `find_one(\x7b"room_id": rid\x7d)`: first document matching the id. -/
def findRoom (db : List Room) (rid : String) : Option Room :=
  db.find? (fun r => r.room_id = rid)

/-- `update_one(\x7b"room_id": rid\x7d, \x7b"$set": ...\x7d)`: rewrite the first
matching document. -/
def updateFirstRoom (db : List Room) (rid : String) (f : Room → Room) : List Room :=
  match db with
  | [] => []
  | r :: rest => if r.room_id = rid then f r :: rest else r :: updateFirstRoom rest rid f

/-- `delete_one(\x7b"room_id": rid\x7d)`: drop the first matching document. -/
def deleteFirstRoom (db : List Room) (rid : String) : List Room :=
  db.eraseP (fun r => r.room_id = rid)

/-- `users_collection.update_one(\x7b"username": u\x7d, ...)`: rewrite the
first matching user document (no-op when none matches). -/
def updateFirstUser (db : List UserRec) (u : String) (f : UserRec → UserRec) : List UserRec :=
  match db with
  | [] => []
  | r :: rest => if r.username = u then f r :: rest else r :: updateFirstUser rest u f

/-- Dict write `self.rooms[rid] = room`: replace in place or insert. -/
def memSet (mem : List Room) (room : Room) : List Room :=
  match mem with
  | [] => [room]
  | r :: rest => if r.room_id = room.room_id then room :: rest else r :: memSet rest room

/-- The session entry for a connection; connections are registered on
accept (server.py 71-77), so the blank default is never hit in the
states the claims quantify over. -/
def getClient (s : ServerState) (cid : String) : ClientState :=
  (alookup cid s.clients).getD { username := none, room_id := none, character_locked := false }

/-- One outbound socket write.  `reply` is `send_message` to the
requester's socket, `err` is `send_error`, `roomCast` is
`broadcast_room_update` (one send per connection whose session room id
matches), `listCast` is `broadcast_room_list`. -/
inductive Out : Type
  | reply (cid : String) (action : String)
  | err (cid : String) (e : SErr)
  | roomCast (rid : String) (action : String)
  | listCast
deriving DecidableEq, Repr

/-! ## Handlers on the full server state -/

/-- `handle_create_room` (server.py 221-274).  The fresh code from
`generate_room_id` is passed in explicitly (randomness externalized);
`insert_one` on a code already present raises `DuplicateKeyError` via
the unique index on `room_id`, which the `except` reports as a generic
failure. -/
def handle_create_room (s : ServerState) (cid : String) (ts : Nat) (code : String) :
    ServerState × List Out :=
  match (getClient s cid).username with
  | none => (s, [.err cid .notLoggedIn])
  | some username =>
      let room_data := initRoom code username ts
      if (findRoom s.db_rooms code).isSome then
        (s, [.err cid .dbError])
      else
        ({ s with
            db_rooms := s.db_rooms ++ [room_data],
            db_users := updateFirstUser s.db_users username
              (fun u => { u with last_room := some code }),
            mem_rooms := memSet s.mem_rooms room_data,
            clients := aset cid { getClient s cid with room_id := some code } s.clients },
          [.reply cid "create_room_response", .listCast])

/-- `handle_join_room` (server.py 276-346). -/
def handle_join_room (s : ServerState) (cid : String) (rid : String) :
    ServerState × List Out :=
  match (getClient s cid).username with
  | none => (s, [.err cid .notLoggedIn])
  | some username =>
      if rid = "" then (s, [.err cid .missingData])
      else
        match findRoom s.db_rooms rid with
        | none => (s, [.err cid .roomNotFound])
        | some room =>
            match join_room_core room username with
            | .error e => (s, [.err cid e])
            | .ok room2 =>
                ({ s with
                    db_rooms := updateFirstRoom s.db_rooms rid
                      (fun r => { r with players := room2.players }),
                    db_users := updateFirstUser s.db_users username
                      (fun u => { u with last_room := some rid }),
                    mem_rooms :=
                      if (findRoom s.mem_rooms rid).isSome then
                        updateFirstRoom s.mem_rooms rid
                          (fun r => { r with players := room2.players })
                      else memSet s.mem_rooms { room with players := room2.players },
                    clients := aset cid { getClient s cid with room_id := some rid } s.clients },
                  [.reply cid "join_room_response", .roomCast rid "room_updated", .listCast])

/-- `handle_join_room` with store failures made explicit: the `try`
block performs three store calls (`find_one`, rooms `update_one`, users
`update_one`); `failAt = some k` makes the k-th call raise, which the
`except` reports as a generic failure.  Store calls made before the
failing one keep their effects. -/
def handle_join_room_faulty (s : ServerState) (cid : String) (rid : String)
    (failAt : Option Nat) : ServerState × List Out :=
  match (getClient s cid).username with
  | none => (s, [.err cid .notLoggedIn])
  | some username =>
      if rid = "" then (s, [.err cid .missingData])
      else if failAt = some 1 then (s, [.err cid .dbError])
      else
        match findRoom s.db_rooms rid with
        | none => (s, [.err cid .roomNotFound])
        | some room =>
            match join_room_core room username with
            | .error e => (s, [.err cid e])
            | .ok room2 =>
                if failAt = some 2 then (s, [.err cid .dbError])
                else
                  let s1 := { s with
                    db_rooms := updateFirstRoom s.db_rooms rid
                      (fun r => { r with players := room2.players }) }
                  if failAt = some 3 then (s1, [.err cid .dbError])
                  else
                    let s2 := { s1 with
                      db_users := updateFirstUser s1.db_users username
                        (fun u => { u with last_room := some rid }),
                      mem_rooms :=
                        if (findRoom s1.mem_rooms rid).isSome then
                          updateFirstRoom s1.mem_rooms rid
                            (fun r => { r with players := room2.players })
                        else memSet s1.mem_rooms { room with players := room2.players },
                      clients := aset cid { getClient s1 cid with room_id := some rid }
                        s1.clients }
                    (s2, [.reply cid "join_room_response", .roomCast rid "room_updated",
                      .listCast])

/-- `handle_select_character` (server.py 483-543).  On success the room
update is mirrored in memory and the character is copied onto the user
document; the response precedes the room broadcast. -/
def handle_select_character (s : ServerState) (cid : String) (character : String) :
    ServerState × List Out :=
  let c := getClient s cid
  match c.username, c.room_id with
  | some username, some rid =>
      if character = "" then (s, [.err cid .missingData])
      else
        (match findRoom s.db_rooms rid with
         | none => (s, [.err cid .roomNotFound])
         | some room =>
             match select_character_room room username character with
             | .error e => (s, [.err cid e])
             | .ok room2 =>
                 ({ s with
                     db_rooms := updateFirstRoom s.db_rooms rid
                       (fun r => { r with player_characters := room2.player_characters }),
                     mem_rooms :=
                       if (findRoom s.mem_rooms rid).isSome then
                         updateFirstRoom s.mem_rooms rid
                           (fun r => { r with player_characters := room2.player_characters })
                       else s.mem_rooms,
                     db_users := updateFirstUser s.db_users username
                       (fun u => { u with character := some character }) },
                   [.reply cid "select_character_response", .roomCast rid "room_updated"]))
  | _, _ => (s, [.err cid .missingData])

/-- `handle_lock_character` (server.py 545-593). -/
def handle_lock_character (s : ServerState) (cid : String) : ServerState × List Out :=
  let c := getClient s cid
  match c.username, c.room_id with
  | some username, some rid =>
      (match findRoom s.db_rooms rid with
       | none => (s, [.err cid .roomNotFound])
       | some room =>
           match lock_character_room room username with
           | .error e => (s, [.err cid e])
           | .ok room2 =>
               ({ s with
                   db_rooms := updateFirstRoom s.db_rooms rid
                     (fun r => { r with character_locked := room2.character_locked }),
                   mem_rooms :=
                     if (findRoom s.mem_rooms rid).isSome then
                       updateFirstRoom s.mem_rooms rid
                         (fun r => { r with character_locked := room2.character_locked })
                     else s.mem_rooms,
                   clients := aset cid { c with character_locked := true } s.clients },
                 [.reply cid "lock_character_response", .roomCast rid "room_updated"]))
  | _, _ => (s, [.err cid .missingData])

/-- `handle_submit_answer` (server.py 409-481).  The answer write is
persisted and the success response sent before the completion check; on
completion the role map is persisted and `role_assigned` goes to the
requester's socket only (there is no broadcast in this handler).  A
`KeyError` from `calculate_role` is caught after the success response
was already sent. -/
def handle_submit_answer (s : ServerState) (cid : String) (qi : Nat) (answer : String) :
    ServerState × List Out :=
  let c := getClient s cid
  match c.username, c.room_id with
  | some username, some rid =>
      if answer = "" then (s, [.err cid .missingData])
      else
        (match findRoom s.db_rooms rid with
         | none => (s, [.err cid .roomNotFound])
         | some room =>
             let o := submit_answer_room room username qi answer
             let sAns := { s with
               db_rooms := updateFirstRoom s.db_rooms rid
                 (fun r => { r with player_answers := o.room.player_answers }),
               mem_rooms :=
                 if (findRoom s.mem_rooms rid).isSome then
                   updateFirstRoom s.mem_rooms rid
                     (fun r => { r with player_answers := o.room.player_answers })
                 else s.mem_rooms }
             match o.roleAssigned with
             | some _ =>
                 ({ sAns with
                     db_rooms := updateFirstRoom sAns.db_rooms rid
                       (fun r => { r with player_roles := o.room.player_roles }),
                     mem_rooms :=
                       if (findRoom sAns.mem_rooms rid).isSome then
                         updateFirstRoom sAns.mem_rooms rid
                           (fun r => { r with player_roles := o.room.player_roles })
                       else sAns.mem_rooms },
                   [.reply cid "submit_answer_response", .reply cid "role_assigned"])
             | none =>
                 if o.keyError then
                   (sAns, [.reply cid "submit_answer_response", .err cid .dbError])
                 else
                   (sAns, [.reply cid "submit_answer_response"]))
  | _, _ => (s, [.err cid .missingData])

/-- `handle_start_game` (server.py 365-406). -/
def handle_start_game (s : ServerState) (cid : String) : ServerState × List Out :=
  let c := getClient s cid
  match c.username, c.room_id with
  | some username, some rid =>
      (match findRoom s.db_rooms rid with
       | none => (s, [.err cid .roomNotFound])
       | some room =>
           match start_game_room room username with
           | .error e => (s, [.err cid e])
           | .ok room2 =>
               ({ s with
                   db_rooms := updateFirstRoom s.db_rooms rid
                     (fun r => { r with game_started := room2.game_started,
                                        current_question := room2.current_question }),
                   mem_rooms :=
                     if (findRoom s.mem_rooms rid).isSome then
                       updateFirstRoom s.mem_rooms rid
                         (fun r => { r with game_started := room2.game_started,
                                            current_question := room2.current_question })
                     else s.mem_rooms },
                 [.reply cid "start_game_response", .roomCast rid "room_updated"]))
  | _, _ => (s, [.err cid .notInRoom])

/-- `handle_leave_room` (server.py 595-663): trim the room, delete it
from both the store and the memory mirror if it became empty, otherwise
persist the trimmed document; finally clear the session's room pointer
and lock flag. -/
def handle_leave_room (s : ServerState) (cid : String) : ServerState × List Out :=
  let c := getClient s cid
  match c.username, c.room_id with
  | some username, some rid =>
      (match findRoom s.db_rooms rid with
       | none => (s, [.err cid .roomNotFound])
       | some room =>
           let room2 := leave_room_core room username
           let s1 :=
             if room2.players.isEmpty then
               { s with db_rooms := deleteFirstRoom s.db_rooms rid,
                        mem_rooms := deleteFirstRoom s.mem_rooms rid }
             else
               { s with
                   db_rooms := updateFirstRoom s.db_rooms rid
                     (fun r => { r with players := room2.players,
                                        player_characters := room2.player_characters,
                                        character_locked := room2.character_locked }),
                   mem_rooms :=
                     if (findRoom s.mem_rooms rid).isSome then
                       updateFirstRoom s.mem_rooms rid
                         (fun r => { r with players := room2.players,
                                            player_characters := room2.player_characters,
                                            character_locked := room2.character_locked })
                     else s.mem_rooms }
           let s2 := { s1 with
             clients := aset cid { c with room_id := none, character_locked := false }
               s1.clients }
           (s2, [.reply cid "leave_room_response"] ++
             (if room2.players.isEmpty then [] else [.roomCast rid "room_updated"]) ++
             [.listCast]))
  | _, _ => (s, [.err cid .notInRoom])

/-- `handle_get_room_status` (server.py 665-689). -/
def handle_get_room_status (s : ServerState) (cid : String) : ServerState × List Out :=
  match (getClient s cid).room_id with
  | none => (s, [.err cid .notInRoom])
  | some rid =>
      match findRoom s.db_rooms rid with
      | none => (s, [.err cid .roomNotFound])
      | some _ => (s, [.reply cid "room_status_response"])

/-- One inbound request at the server level. -/
inductive SOp : Type
  | create (cid : String) (ts : Nat) (code : String)
  | join (cid rid : String)
  | leave (cid : String)
  | select (cid character : String)
  | lock (cid : String)
  | submit (cid : String) (qi : Nat) (ans : String)
  | start (cid : String)
  | status (cid : String)
deriving DecidableEq, Repr

/-- Dispatch of `process_message` restricted to the room handlers. -/
def serverStep (s : ServerState) : SOp → ServerState × List Out
  | .create cid ts code => handle_create_room s cid ts code
  | .join cid rid => handle_join_room s cid rid
  | .leave cid => handle_leave_room s cid
  | .select cid character => handle_select_character s cid character
  | .lock cid => handle_lock_character s cid
  | .submit cid qi ans => handle_submit_answer s cid qi ans
  | .start cid => handle_start_game s cid
  | .status cid => handle_get_room_status s cid

/-- No persisted or mirrored room document has an empty member list. -/
def NoEmptyRooms (s : ServerState) : Prop :=
  (∀ r ∈ s.db_rooms, r.players ≠ []) ∧ (∀ r ∈ s.mem_rooms, r.players ≠ [])

/-- The `random.choices(string.ascii_uppercase + string.digits, k=6)`
alphabet of `generate_room_id` (server.py 697-699). -/
def roomIdAlphabet : List Char :=
  "ABCDEFGHIJKLMNOPQRSTUVWXYZ0123456789".toList

/-- `generate_room_id` (server.py 697-699): six independent draws from
the 36-character alphabet; the randomness is externalized as the
`choice` function.  There is no retry loop in the source. -/
def generate_room_id (choice : Fin 6 → Fin 36) : String :=
  String.mk ((List.finRange 6).map (fun i => roomIdAlphabet.getD (choice i).val 'A'))

/-! ## Concrete states used by witnesses and counterexamples -/

/-- A fresh room where player "x" has selected the character "Knight". -/
def midRoomEx : Room :=
  { initRoom "R1" "x" 0 with player_characters := [("x", "Knight")] }

/-- `midRoomEx` after "x" locked the character. -/
def lockedRoomEx : Room :=
  { initRoom "R1" "x" 0 with
    player_characters := [("x", "Knight")],
    character_locked := [("x", true)] }

/-- `lockedRoomEx` after "y" joined. -/
def joinedRoomEx : Room :=
  { lockedRoomEx with players := ["x", "y"] }

/-- A room already at the 4-player capacity. -/
def fullRoomEx : Room :=
  { initRoom "R2" "a" 0 with players := ["a", "b", "c", "d"] }

/-- `initRoom "R2" "a" 0` after "b" joined. -/
def joinBRoomEx : Room :=
  { initRoom "R2" "a" 0 with players := ["a", "b"] }

/-- A room where "x" already holds six answer slots. -/
def ovRoomEx : Room :=
  { initRoom "R3" "x" 0 with player_answers :=
      [("x", [some "A", some "A", some "A", some "A", some "A", some "A"])] }

/-- A room where "x" holds answers at indices 0-3. -/
def ansRoomEx : Room :=
  { initRoom "R4" "x" 0 with player_answers :=
      [("x", [some "A", some "A", some "B", some "B"])] }

/-- A server state whose only room is `ansRoomEx`, with "x" connected. -/
def ansStateEx : ServerState :=
  { db_rooms := [ansRoomEx],
    db_users := [{ username := "x", last_room := some "R4", character := none }],
    mem_rooms := [ansRoomEx],
    clients :=
      [("c1", { username := some "x", room_id := some "R4", character_locked := false })] }

/-- A server state with a lone-member room "R1" and two connections. -/
def leaveStateEx : ServerState :=
  { db_rooms := [initRoom "R1" "x" 0],
    db_users := [{ username := "x", last_room := some "R1", character := none }],
    mem_rooms := [initRoom "R1" "x" 0],
    clients :=
      [("c1", { username := some "x", room_id := some "R1", character_locked := false }),
       ("c2", { username := some "y", room_id := some "R1", character_locked := false })] }

/-- The two-member room used for leave-with-remainder. -/
def leave2RoomEx : Room :=
  { initRoom "R1" "x" 0 with
    players := ["x", "y"],
    player_characters := [("x", "Knight"), ("y", "Mage")],
    player_answers := [("x", [some "A"])],
    player_roles := [("x", "Tank")],
    character_locked := [("x", true)] }

/-- A server state with a two-member room, for leave-with-remainder. -/
def leave2StateEx : ServerState :=
  { db_rooms := [leave2RoomEx],
    db_users := [],
    mem_rooms := [],
    clients :=
      [("c1", { username := some "x", room_id := some "R1", character_locked := true })] }

/-- A server state holding an active room with the code "AAAAAA". -/
def codeStateEx : ServerState :=
  { db_rooms := [initRoom "AAAAAA" "alice" 0],
    db_users := [{ username := "bob", last_room := none, character := none }],
    mem_rooms := [initRoom "AAAAAA" "alice" 0],
    clients :=
      [("c1", { username := some "bob", room_id := none, character_locked := false })] }

/-- A server state where "a" owns room "R1" and "b" is connected but not
a member, used to exhibit a mid-handler store failure. -/
def faultStateEx : ServerState :=
  { db_rooms := [initRoom "R1" "a" 0],
    db_users :=
      [{ username := "a", last_room := some "R1", character := none },
       { username := "b", last_room := none, character := none }],
    mem_rooms := [initRoom "R1" "a" 0],
    clients :=
      [("c1", { username := some "a", room_id := some "R1", character_locked := false }),
       ("c2", { username := some "b", room_id := none, character_locked := false })] }

lemma mem_letters (l : Letter) : l ∈ letters := by
  cases l <;> simp [letters]

lemma pyMaxKey_le (f : Letter → Nat) :
    ∀ (xs : List Letter) (best : Letter),
      f best ≤ f (pyMaxKey f xs best) ∧ ∀ x ∈ xs, f x ≤ f (pyMaxKey f xs best) := by
  intro xs
  induction xs with
  | nil => intro best; exact ⟨le_refl _, by simp⟩
  | cons a l ih =>
    intro best
    simp only [pyMaxKey]
    obtain ⟨h1, h2⟩ := ih (if f a > f best then a else best)
    have hb : f best ≤ f (if f a > f best then a else best) := by
      split <;> omega
    have ha : f a ≤ f (if f a > f best then a else best) := by
      split <;> omega
    refine ⟨le_trans hb h1, ?_⟩
    intro x hx
    rcases List.mem_cons.mp hx with rfl | hx
    · exact le_trans ha h1
    · exact h2 x hx

lemma pyMaxKey_first (f : Letter → Nat) :
    ∀ (xs : List Letter) (best : Letter),
      pyMaxKey f xs best = best ∨
        ∃ pre x post, xs = pre ++ x :: post ∧ pyMaxKey f xs best = x ∧
          f best < f x ∧ ∀ y ∈ pre, f y < f x := by
  intro xs
  induction xs with
  | nil => intro best; exact Or.inl rfl
  | cons a l ih =>
    intro best
    simp only [pyMaxKey]
    by_cases h : f a > f best
    · simp only [if_pos h]
      rcases ih a with h' | ⟨pre, x, post, hsplit, hres, hlt, hpre⟩
      · exact Or.inr ⟨[], a, l, rfl, h', h, by simp⟩
      · refine Or.inr ⟨a :: pre, x, post, by rw [hsplit]; rfl, hres, lt_trans h hlt, ?_⟩
        intro y hy
        rcases List.mem_cons.mp hy with rfl | hy
        · exact hlt
        · exact hpre y hy
    · simp only [if_neg h]
      rcases ih best with h' | ⟨pre, x, post, hsplit, hres, hlt, hpre⟩
      · exact Or.inl h'
      · refine Or.inr ⟨a :: pre, x, post, by rw [hsplit]; rfl, hres, hlt, ?_⟩
        intro y hy
        rcases List.mem_cons.mp hy with rfl | hy
        · omega
        · exact hpre y hy

/-- The winner picked by the source's `calculate_role` tie-break logic is
exactly the spec's lexically-first maximal-count letter. -/
lemma chooseOption_eq_specWinner (answers : List Letter) :
    chooseOption answers = specWinner answers := by
  set f := option_count answers with hf
  set r := maxOption answers with hr
  have hmax : ∀ l : Letter, f l ≤ f r := by
    intro l
    have h := pyMaxKey_le f [Letter.B, Letter.C, Letter.D, Letter.E, Letter.F] Letter.A
    cases l
    · exact h.1
    · exact h.2 _ (by simp)
    · exact h.2 _ (by simp)
    · exact h.2 _ (by simp)
    · exact h.2 _ (by simp)
    · exact h.2 _ (by simp)
  obtain ⟨preL, postL, hdecomp, hpre⟩ :
      ∃ preL postL, letters = preL ++ r :: postL ∧ ∀ y ∈ preL, f y < f r := by
    rcases pyMaxKey_first f [Letter.B, Letter.C, Letter.D, Letter.E, Letter.F] Letter.A with
      h | ⟨pre, x, post, hsplit, hres, hlt, hp⟩
    · refine ⟨[], [Letter.B, Letter.C, Letter.D, Letter.E, Letter.F], ?_, by simp⟩
      have : r = Letter.A := h
      rw [this]; rfl
    · have hrx : r = x := hres
      refine ⟨Letter.A :: pre, post, ?_, ?_⟩
      · rw [hrx]
        show letters = (Letter.A :: pre) ++ x :: post
        have : letters = Letter.A :: [Letter.B, Letter.C, Letter.D, Letter.E, Letter.F] := rfl
        rw [this, hsplit]; rfl
      · intro y hy
        rcases List.mem_cons.mp hy with rfl | hy
        · rw [hrx]; exact hlt
        · rw [hrx]; exact hp y hy
  have hfilpre : ∀ (p : Letter → Bool), (∀ y ∈ preL, p y = false) →
      letters.filter p = if p r then r :: postL.filter p else postL.filter p := by
    intro p hp
    rw [hdecomp, List.filter_append, List.filter_eq_nil_iff.mpr (fun a ha => by simp [hp a ha]),
      List.nil_append, List.filter_cons]
  have htied : tiedOptions answers = r :: postL.filter (fun l => decide (f l = f r)) := by
    unfold tiedOptions
    rw [← hf, ← hr]
    rw [hfilpre _ (fun y hy => by simp [Nat.ne_of_lt (hpre y hy)])]
    simp
  have hchoose : chooseOption answers = r := by
    unfold chooseOption
    rw [htied]
    by_cases hlen : (r :: postL.filter (fun l => decide (f l = f r))).length > 1 <;>
      simp [hlen]
  have hspec : specWinner answers = r := by
    unfold specWinner
    rw [← hf]
    rw [hfilpre _ (fun y hy => ?side)]
    case side =>
      simp [List.all_eq_true]
      exact ⟨r, mem_letters r, hpre y hy⟩
    have : (letters.all (fun l2 => decide (f l2 ≤ f r))) = true := by
      simp [List.all_eq_true]
      intro l2 _
      exact hmax l2
    rw [if_pos this]
    rfl
  rw [hchoose, hspec]

/-! ## Association list lemmas -/

lemma alookup_aset_self (k : String) (v : α) (m : List (String × α)) :
    alookup k (aset k v m) = some v := by
  induction m with
  | nil => simp [aset, alookup]
  | cons p rest ih =>
      by_cases h : p.1 = k
      · simp [aset, alookup, h]
      · simp [aset, alookup, h, ih]

lemma alookup_aset_ne (k k2 : String) (v : α) (m : List (String × α)) (h : k2 ≠ k) :
    alookup k (aset k2 v m) = alookup k m := by
  induction m with
  | nil => simp [aset, alookup, h]
  | cons p rest ih =>
      simp only [aset]
      by_cases h2 : p.1 = k2
      · have h3 : ¬ p.1 = k := by rw [h2]; exact h
        simp only [if_pos h2, alookup, if_neg h, if_neg h3]
      · simp only [if_neg h2, alookup]
        by_cases h3 : p.1 = k
        · rw [if_pos h3, if_pos h3]
        · rw [if_neg h3, if_neg h3]
          exact ih

lemma alookup_aerase_self (k : String) (m : List (String × α)) :
    alookup k (aerase k m) = none := by
  induction m with
  | nil => rfl
  | cons p rest ih =>
      obtain ⟨a, b⟩ := p
      simp only [aerase]
      by_cases h : a = k
      · rw [if_pos h]
        exact ih
      · rw [if_neg h]
        simp only [alookup, if_neg h]
        exact ih

lemma alookup_aerase_ne (k k2 : String) (m : List (String × α)) (h : k2 ≠ k) :
    alookup k (aerase k2 m) = alookup k m := by
  induction m with
  | nil => rfl
  | cons p rest ih =>
      obtain ⟨a, b⟩ := p
      simp only [aerase]
      by_cases h2 : a = k2
      · have h3 : ¬ a = k := by rw [h2]; exact h
        rw [if_pos h2, ih]
        simp only [alookup, if_neg h3]
      · rw [if_neg h2]
        simp only [alookup]
        by_cases h3 : a = k
        · rw [if_pos h3, if_pos h3]
        · rw [if_neg h3, if_neg h3]
          exact ih

/-! ## Store lemmas -/

lemma findRoom_updateFirstRoom_self (db : List Room) (rid : String) (f : Room → Room)
    (hid : ∀ r, (f r).room_id = r.room_id) :
    findRoom (updateFirstRoom db rid f) rid = (findRoom db rid).map f := by
  induction db with
  | nil => simp [updateFirstRoom, findRoom]
  | cons r rest ih =>
      by_cases h : r.room_id = rid
      · simp [updateFirstRoom, findRoom, h, hid, List.find?_cons]
      · simp only [updateFirstRoom, if_neg h]
        simp only [findRoom, List.find?_cons] at ih ⊢
        simp [h, ih]

lemma mem_updateFirstRoom (db : List Room) (rid : String) (f : Room → Room) (r2 : Room)
    (h : r2 ∈ updateFirstRoom db rid f) : r2 ∈ db ∨ ∃ r ∈ db, r2 = f r := by
  induction db with
  | nil => simp [updateFirstRoom] at h
  | cons r rest ih =>
      by_cases hr : r.room_id = rid
      · simp only [updateFirstRoom, if_pos hr] at h
        rcases List.mem_cons.mp h with rfl | h2
        · exact Or.inr ⟨r, List.mem_cons_self r rest, rfl⟩
        · exact Or.inl (List.mem_cons_of_mem r h2)
      · simp only [updateFirstRoom, if_neg hr] at h
        rcases List.mem_cons.mp h with rfl | h2
        · exact Or.inl (List.mem_cons_self r2 rest)
        · rcases ih h2 with h3 | ⟨r3, hr3, h4⟩
          · exact Or.inl (List.mem_cons_of_mem r h3)
          · exact Or.inr ⟨r3, List.mem_cons_of_mem r hr3, h4⟩

lemma mem_deleteFirstRoom (db : List Room) (rid : String) (r2 : Room)
    (h : r2 ∈ deleteFirstRoom db rid) : r2 ∈ db :=
  (List.eraseP_sublist db).mem h

lemma mem_memSet (mem : List Room) (room r2 : Room) (h : r2 ∈ memSet mem room) :
    r2 ∈ mem ∨ r2 = room := by
  induction mem with
  | nil => simp [memSet] at h; exact Or.inr h
  | cons r rest ih =>
      by_cases hr : r.room_id = room.room_id
      · simp only [memSet, if_pos hr] at h
        rcases List.mem_cons.mp h with rfl | h2
        · exact Or.inr rfl
        · exact Or.inl (List.mem_cons_of_mem r h2)
      · simp only [memSet, if_neg hr] at h
        rcases List.mem_cons.mp h with rfl | h2
        · exact Or.inl (List.mem_cons_self r2 rest)
        · rcases ih h2 with h3 | h4
          · exact Or.inl (List.mem_cons_of_mem r h3)
          · exact Or.inr h4

lemma findRoom_deleteFirstRoom (db : List Room) (rid : String)
    (hnd : (db.map Room.room_id).Nodup) :
    findRoom (deleteFirstRoom db rid) rid = none := by
  induction db with
  | nil => simp [deleteFirstRoom, findRoom]
  | cons r rest ih =>
      simp only [List.map_cons, List.nodup_cons] at hnd
      by_cases h : r.room_id = rid
      · have hb : (decide (r.room_id = rid)) = true := by simp [h]
        simp only [deleteFirstRoom, List.eraseP_cons, hb, cond_true]
        simp only [findRoom, List.find?_eq_none, decide_eq_true_eq]
        intro r2 hr2 hc
        have hm : r2.room_id ∈ rest.map Room.room_id :=
          List.mem_map_of_mem Room.room_id hr2
        rw [hc, ← h] at hm
        exact hnd.1 hm
      · have hb : (decide (r.room_id = rid)) = false := by simp [h]
        simp only [deleteFirstRoom, List.eraseP_cons, hb, cond_false]
        rw [show findRoom (r :: List.eraseP (fun r => decide (r.room_id = rid)) rest) rid =
          findRoom (List.eraseP (fun r => decide (r.room_id = rid)) rest) rid from ?eq]
        case eq =>
          unfold findRoom
          exact List.find?_cons_of_neg _ (by simp [h])
        exact ih hnd.2

/-! ## Frame lemmas for the room-level operations -/

lemma select_ok_shape (room : Room) (u c : String) (r2 : Room)
    (h : select_character_room room u c = .ok r2) :
    r2 = { room with player_characters := aset u c room.player_characters } := by
  unfold select_character_room at h
  split at h
  · simp at h
  · split at h
    · simp at h
    · exact (Except.ok.inj h).symm

lemma lock_ok_shape (room : Room) (u : String) (r2 : Room)
    (h : lock_character_room room u = .ok r2) :
    r2 = { room with character_locked := aset u true room.character_locked } := by
  unfold lock_character_room at h
  split at h
  · simp at h
  · exact (Except.ok.inj h).symm

lemma start_ok_shape (room : Room) (u : String) (r2 : Room)
    (h : start_game_room room u = .ok r2) :
    r2 = { room with game_started := true, current_question := 0 } := by
  unfold start_game_room at h
  split at h
  · simp at h
  · exact (Except.ok.inj h).symm

lemma join_ok_shape (room : Room) (u : String) (r2 : Room)
    (h : join_room_core room u = .ok r2) :
    r2 = { room with players := room.players ++ [u] } ∧ room.is_active = true ∧
      u ∉ room.players ∧ room.players.length < room.max_players := by
  unfold join_room_core at h
  split at h
  · simp at h
  · split at h
    · simp at h
    · split at h
      · simp at h
      · refine ⟨(Except.ok.inj h).symm, ?_, by assumption, by omega⟩
        rename_i hact _ _
        simpa using hact

lemma submit_answer_room_frame (room : Room) (u : String) (qi : Nat) (a : String) :
    (submit_answer_room room u qi a).room.players = room.players ∧
    (submit_answer_room room u qi a).room.player_characters = room.player_characters ∧
    (submit_answer_room room u qi a).room.character_locked = room.character_locked ∧
    (submit_answer_room room u qi a).room.is_active = room.is_active ∧
    (submit_answer_room room u qi a).room.max_players = room.max_players ∧
    (submit_answer_room room u qi a).room.creator = room.creator ∧
    (submit_answer_room room u qi a).room.room_id = room.room_id := by
  unfold submit_answer_room
  dsimp only
  split
  · split <;> simp
  · simp

lemma submit_answer_room_answers (room : Room) (u : String) (qi : Nat) (a : String) :
    alookup u (submit_answer_room room u qi a).room.player_answers =
      some ((padAnswers ((alookup u room.player_answers).getD []) qi).set qi (some a)) := by
  unfold submit_answer_room
  dsimp only
  split
  · split
    · simp [alookup_aset_self]
    · simp [alookup_aset_self]
  · simp [alookup_aset_self]

lemma padAnswers_length (l : List (Option String)) (qi : Nat) :
    (padAnswers l qi).length = max l.length (qi + 1) := by
  simp [padAnswers]
  omega

/-! ## The room invariant along reachable states -/

lemma reachableRoom_inv (room : Room) (h : ReachableRoom room) : RoomInv room := by
  induction h with
  | init rid creator ts =>
      refine ⟨?_, rfl, ?_, rfl⟩
      · simp [initRoom]
      · simp [initRoom]
  | step r op r2 hr hstep ih =>
      obtain ⟨hlen, hmax, hnd, hact⟩ := ih
      cases op with
      | join u =>
          simp only [roomStep] at hstep
          cases hj : join_room_core r u with
          | error e =>
              rw [hj] at hstep
              cases hstep
              exact ⟨hlen, hmax, hnd, hact⟩
          | ok r3 =>
              rw [hj] at hstep
              cases hstep
              obtain ⟨rfl, _, hnm, hlt⟩ := join_ok_shape r u r2 hj
              refine ⟨by simpa using hlt, hmax, ?_, hact⟩
              simp only [List.nodup_append, List.nodup_cons, List.not_mem_nil,
                not_false_iff, List.nodup_nil, and_true, true_and]
              constructor
              · exact hnd
              · intro a ha hmem
                rw [List.mem_singleton] at hmem
                subst hmem
                exact hnm ha
      | leave u =>
          simp only [roomStep] at hstep
          split at hstep
          · cases hstep
          · cases hstep
            unfold leave_room_core
            refine ⟨?_, hmax, ?_, hact⟩
            · by_cases hm : u ∈ r.players
              · simp only [if_pos hm]
                exact le_trans ((r.players.erase_sublist u).length_le) hlen
              · simpa [hm] using hlen
            · by_cases hm : u ∈ r.players
              · simp only [if_pos hm]
                exact hnd.erase u
              · simpa [hm] using hnd
      | select u c =>
          simp only [roomStep] at hstep
          cases hs : select_character_room r u c with
          | error e =>
              rw [hs] at hstep
              cases hstep
              exact ⟨hlen, hmax, hnd, hact⟩
          | ok r3 =>
              rw [hs] at hstep
              cases hstep
              rw [select_ok_shape r u c r2 hs]
              exact ⟨hlen, hmax, hnd, hact⟩
      | lock u =>
          simp only [roomStep] at hstep
          cases hs : lock_character_room r u with
          | error e =>
              rw [hs] at hstep
              cases hstep
              exact ⟨hlen, hmax, hnd, hact⟩
          | ok r3 =>
              rw [hs] at hstep
              cases hstep
              rw [lock_ok_shape r u r2 hs]
              exact ⟨hlen, hmax, hnd, hact⟩
      | submit u qi ans =>
          simp only [roomStep] at hstep
          split at hstep
          · cases hstep
            exact ⟨hlen, hmax, hnd, hact⟩
          · cases hstep
            obtain ⟨h1, _, _, h4, h5, _, _⟩ := submit_answer_room_frame r u qi ans
            exact ⟨by rw [h1, h5]; exact hlen, by rw [h5]; exact hmax,
              by rw [h1]; exact hnd, by rw [h4]; exact hact⟩
      | start u =>
          simp only [roomStep] at hstep
          cases hs : start_game_room r u with
          | error e =>
              rw [hs] at hstep
              cases hstep
              exact ⟨hlen, hmax, hnd, hact⟩
          | ok r3 =>
              rw [hs] at hstep
              cases hstep
              rw [start_ok_shape r u r2 hs]
              exact ⟨hlen, hmax, hnd, hact⟩

/-- Once a reachable room has a player locked and that player stays a
member across one step, the lock flag and the character selection
survive the step. -/
lemma lock_preserved_step (r : Room) (op : RoomOp) (r2 : Room) (u : String)
    (hreach : ReachableRoom r)
    (hlock : alookup u r.character_locked = some true)
    (hmem : u ∈ r.players)
    (hstep : roomStep r op = some r2)
    (hmem2 : u ∈ r2.players) :
    alookup u r2.character_locked = some true ∧
      alookup u r2.player_characters = alookup u r.player_characters := by
  obtain ⟨_, _, hnd, _⟩ := reachableRoom_inv r hreach
  cases op with
  | join v =>
      simp only [roomStep] at hstep
      cases hj : join_room_core r v with
      | error e =>
          rw [hj] at hstep
          cases hstep
          exact ⟨hlock, rfl⟩
      | ok r3 =>
          rw [hj] at hstep
          cases hstep
          rw [join_ok_shape r v r2 hj |>.1]
          exact ⟨hlock, rfl⟩
  | leave v =>
      simp only [roomStep] at hstep
      split at hstep
      · cases hstep
      · cases hstep
        by_cases hv : v = u
        · subst hv
          exfalso
          unfold leave_room_core at hmem2
          simp only [if_pos hmem] at hmem2
          exact (List.Nodup.mem_erase_iff hnd).mp hmem2 |>.1 rfl
        · unfold leave_room_core
          exact ⟨by rw [alookup_aerase_ne u v _ hv]; exact hlock,
            by rw [alookup_aerase_ne u v _ hv]⟩
  | select v c =>
      simp only [roomStep] at hstep
      cases hs : select_character_room r v c with
      | error e =>
          rw [hs] at hstep
          cases hstep
          exact ⟨hlock, rfl⟩
      | ok r3 =>
          rw [hs] at hstep
          cases hstep
          have hv : v ≠ u := by
            intro hvu
            subst hvu
            unfold select_character_room at hs
            rw [hlock] at hs
            split at hs
            · simp at hs
            · simp at hs
          rw [select_ok_shape r v c r2 hs]
          exact ⟨hlock, by rw [alookup_aset_ne u v c _ hv]⟩
  | lock v =>
      simp only [roomStep] at hstep
      cases hs : lock_character_room r v with
      | error e =>
          rw [hs] at hstep
          cases hstep
          exact ⟨hlock, rfl⟩
      | ok r3 =>
          rw [hs] at hstep
          cases hstep
          rw [lock_ok_shape r v r2 hs]
          by_cases hv : v = u
          · subst hv
            exact ⟨alookup_aset_self v true _, rfl⟩
          · exact ⟨by rw [alookup_aset_ne u v true _ hv]; exact hlock, rfl⟩
  | submit v qi ans =>
      simp only [roomStep] at hstep
      split at hstep
      · cases hstep
        exact ⟨hlock, rfl⟩
      · cases hstep
        obtain ⟨_, h2, h3, _, _, _, _⟩ := submit_answer_room_frame r v qi ans
        exact ⟨by rw [h3]; exact hlock, by rw [h2]⟩
  | start v =>
      simp only [roomStep] at hstep
      cases hs : start_game_room r v with
      | error e =>
          rw [hs] at hstep
          cases hstep
          exact ⟨hlock, rfl⟩
      | ok r3 =>
          rw [hs] at hstep
          cases hstep
          rw [start_ok_shape r v r2 hs]
          exact ⟨hlock, rfl⟩

/-! ## Submit-answer length and role lemmas -/

lemma submit_answer_room_len (room : Room) (u : String) (qi : Nat) (a : String) :
    ((alookup u (submit_answer_room room u qi a).room.player_answers).getD []).length
      = max ((alookup u room.player_answers).getD []).length (qi + 1) := by
  rw [submit_answer_room_answers]
  simp [List.length_set, padAnswers_length]

lemma submit_answer_room_no_role (room : Room) (u : String) (qi : Nat) (a : String)
    (h : 5 < ((alookup u room.player_answers).getD []).length) :
    (submit_answer_room room u qi a).roleAssigned = none ∧
      (submit_answer_room room u qi a).room.player_roles = room.player_roles := by
  unfold submit_answer_room
  dsimp only
  split
  · rename_i hcond
    exfalso
    have := hcond.1
    rw [List.length_set, padAnswers_length] at this
    omega
  · exact ⟨rfl, rfl⟩

lemma runSubmits_no_role (u : String) :
    ∀ (l : List (Nat × String)) (room : Room),
      5 < ((alookup u room.player_answers).getD []).length →
      (runSubmits u room l).1.player_roles = room.player_roles ∧
        (runSubmits u room l).2 = false := by
  intro l
  induction l with
  | nil => intro room _; exact ⟨rfl, rfl⟩
  | cons p rest ih =>
      intro room h
      obtain ⟨qi, a⟩ := p
      simp only [runSubmits]
      obtain ⟨hrole, hmap⟩ := submit_answer_room_no_role room u qi a h
      have hlen2 : 5 < ((alookup u
          (submit_answer_room room u qi a).room.player_answers).getD []).length := by
        rw [submit_answer_room_len]
        omega
      obtain ⟨ih1, ih2⟩ := ih (submit_answer_room room u qi a).room hlen2
      constructor
      · rw [ih1, hmap]
      · simp [ih2, hrole]

/-! ## No persisted empty rooms: preservation by every handler -/

lemma noEmpty_updateFirstRoom (db : List Room) (rid : String) (f : Room → Room)
    (hdb : ∀ r ∈ db, r.players ≠ []) (hf : ∀ r ∈ db, (f r).players ≠ []) :
    ∀ r ∈ updateFirstRoom db rid f, r.players ≠ [] := by
  intro r2 h
  rcases mem_updateFirstRoom db rid f r2 h with h2 | ⟨r, hr, rfl⟩
  · exact hdb r2 h2
  · exact hf r hr

lemma noEmpty_condUpdate (M : List Room) (rid : String) (f : Room → Room) (c : Prop)
    [Decidable c] (hM : ∀ r ∈ M, r.players ≠ []) (hf : ∀ r ∈ M, (f r).players ≠ []) :
    ∀ r ∈ (if c then updateFirstRoom M rid f else M), r.players ≠ [] := by
  intro r hr
  split at hr
  · exact noEmpty_updateFirstRoom _ _ _ hM hf r hr
  · exact hM r hr

lemma serverStep_noEmpty (s : ServerState) (op : SOp) (h : NoEmptyRooms s) :
    NoEmptyRooms (serverStep s op).1 := by
  obtain ⟨hdb, hmem⟩ := h
  cases op with
  | create cid ts code =>
      simp only [serverStep, handle_create_room]
      cases (getClient s cid).username with
      | none => exact ⟨hdb, hmem⟩
      | some username =>
          dsimp only
          split
          · exact ⟨hdb, hmem⟩
          · refine ⟨?_, ?_⟩
            · intro r hr
              rcases List.mem_append.mp hr with h2 | h2
              · exact hdb r h2
              · rw [List.mem_singleton] at h2
                subst h2
                simp [initRoom]
            · intro r hr
              rcases mem_memSet _ _ _ hr with h2 | h2
              · exact hmem r h2
              · subst h2
                simp [initRoom]
  | join cid rid =>
      simp only [serverStep, handle_join_room]
      cases (getClient s cid).username with
      | none => exact ⟨hdb, hmem⟩
      | some username =>
          dsimp only
          split
          · exact ⟨hdb, hmem⟩
          · cases hfr : findRoom s.db_rooms rid with
            | none => exact ⟨hdb, hmem⟩
            | some room =>
                dsimp only
                cases hj : join_room_core room username with
                | error e => exact ⟨hdb, hmem⟩
                | ok room2 =>
                    obtain ⟨rfl, _, _, _⟩ := join_ok_shape room username room2 hj
                    refine ⟨noEmpty_updateFirstRoom _ _ _ hdb (fun r _ => by simp), ?_⟩
                    intro r hr
                    dsimp only at hr
                    split at hr
                    · exact noEmpty_updateFirstRoom _ _ _ hmem (fun r _ => by simp) r hr
                    · rcases mem_memSet _ _ _ hr with h2 | h2
                      · exact hmem r h2
                      · subst h2
                        simp
  | leave cid =>
      simp only [serverStep, handle_leave_room]
      cases (getClient s cid).username with
      | none =>
          cases (getClient s cid).room_id with
          | none => exact ⟨hdb, hmem⟩
          | some rid => exact ⟨hdb, hmem⟩
      | some username =>
          cases (getClient s cid).room_id with
          | none => exact ⟨hdb, hmem⟩
          | some rid =>
              dsimp only
              cases hfr : findRoom s.db_rooms rid with
              | none => exact ⟨hdb, hmem⟩
              | some room =>
                  dsimp only
                  split
                  · exact ⟨fun r hr => hdb r (mem_deleteFirstRoom _ _ _ hr),
                      fun r hr => hmem r (mem_deleteFirstRoom _ _ _ hr)⟩
                  · rename_i hne
                    have hnonempty : (leave_room_core room username).players ≠ [] := by
                      intro hc
                      exact hne (by rw [hc]; rfl)
                    refine ⟨noEmpty_updateFirstRoom _ _ _ hdb (fun r _ => hnonempty), ?_⟩
                    exact noEmpty_condUpdate _ _ _ _ hmem (fun r2 _ => by exact hnonempty)
  | select cid character =>
      simp only [serverStep, handle_select_character]
      cases (getClient s cid).username with
      | none =>
          cases (getClient s cid).room_id with
          | none => exact ⟨hdb, hmem⟩
          | some rid => exact ⟨hdb, hmem⟩
      | some username =>
          cases (getClient s cid).room_id with
          | none => exact ⟨hdb, hmem⟩
          | some rid =>
              dsimp only
              split
              · exact ⟨hdb, hmem⟩
              · cases findRoom s.db_rooms rid with
                | none => exact ⟨hdb, hmem⟩
                | some room =>
                    dsimp only
                    cases select_character_room room username character with
                    | error e => exact ⟨hdb, hmem⟩
                    | ok room2 =>
                        refine ⟨noEmpty_updateFirstRoom _ _ _ hdb (fun r hr => hdb r hr), ?_⟩
                        exact noEmpty_condUpdate _ _ _ _ hmem (fun r2 hr2 => by exact hmem r2 hr2)
  | lock cid =>
      simp only [serverStep, handle_lock_character]
      cases (getClient s cid).username with
      | none =>
          cases (getClient s cid).room_id with
          | none => exact ⟨hdb, hmem⟩
          | some rid => exact ⟨hdb, hmem⟩
      | some username =>
          cases (getClient s cid).room_id with
          | none => exact ⟨hdb, hmem⟩
          | some rid =>
              dsimp only
              cases findRoom s.db_rooms rid with
              | none => exact ⟨hdb, hmem⟩
              | some room =>
                  dsimp only
                  cases lock_character_room room username with
                  | error e => exact ⟨hdb, hmem⟩
                  | ok room2 =>
                      refine ⟨noEmpty_updateFirstRoom _ _ _ hdb (fun r hr => hdb r hr), ?_⟩
                      exact noEmpty_condUpdate _ _ _ _ hmem (fun r2 hr2 => by exact hmem r2 hr2)
  | submit cid qi ans =>
      simp only [serverStep, handle_submit_answer]
      cases (getClient s cid).username with
      | none =>
          cases (getClient s cid).room_id with
          | none => exact ⟨hdb, hmem⟩
          | some rid => exact ⟨hdb, hmem⟩
      | some username =>
          cases (getClient s cid).room_id with
          | none => exact ⟨hdb, hmem⟩
          | some rid =>
              dsimp only
              split
              · exact ⟨hdb, hmem⟩
              · cases findRoom s.db_rooms rid with
                | none => exact ⟨hdb, hmem⟩
                | some room =>
                    dsimp only
                    have hAns : ∀ r ∈ updateFirstRoom s.db_rooms rid
                        (fun r => { r with player_answers :=
                          (submit_answer_room room username qi ans).room.player_answers }),
                        r.players ≠ [] :=
                      noEmpty_updateFirstRoom _ _ _ hdb (fun r hr => hdb r hr)
                    have hAnsMem : ∀ r ∈ (if (findRoom s.mem_rooms rid).isSome then
                        updateFirstRoom s.mem_rooms rid
                          (fun r => { r with player_answers :=
                            (submit_answer_room room username qi ans).room.player_answers })
                        else s.mem_rooms), r.players ≠ [] :=
                      noEmpty_condUpdate _ _ _ _ hmem (fun r2 hr2 => by exact hmem r2 hr2)
                    cases (submit_answer_room room username qi ans).roleAssigned with
                    | some role =>
                        dsimp only
                        refine ⟨?_, ?_⟩
                        · refine noEmpty_updateFirstRoom _ _ _ hAns ?_
                          intro r2 hr2
                          exact hAns r2 hr2
                        · exact noEmpty_condUpdate _ _ _ _ hAnsMem
                            (fun r2 hr2 => by exact hAnsMem r2 hr2)
                    | none =>
                        dsimp only
                        split
                        · exact ⟨hAns, hAnsMem⟩
                        · exact ⟨hAns, hAnsMem⟩
  | start cid =>
      simp only [serverStep, handle_start_game]
      cases (getClient s cid).username with
      | none =>
          cases (getClient s cid).room_id with
          | none => exact ⟨hdb, hmem⟩
          | some rid => exact ⟨hdb, hmem⟩
      | some username =>
          cases (getClient s cid).room_id with
          | none => exact ⟨hdb, hmem⟩
          | some rid =>
              dsimp only
              cases findRoom s.db_rooms rid with
              | none => exact ⟨hdb, hmem⟩
              | some room =>
                  dsimp only
                  cases start_game_room room username with
                  | error e => exact ⟨hdb, hmem⟩
                  | ok room2 =>
                      refine ⟨noEmpty_updateFirstRoom _ _ _ hdb (fun r hr => hdb r hr), ?_⟩
                      exact noEmpty_condUpdate _ _ _ _ hmem (fun r2 hr2 => by exact hmem r2 hr2)
  | status cid =>
      simp only [serverStep, handle_get_room_status]
      cases (getClient s cid).room_id with
      | none => exact ⟨hdb, hmem⟩
      | some rid =>
          dsimp only
          cases findRoom s.db_rooms rid with
          | none => exact ⟨hdb, hmem⟩
          | some room => exact ⟨hdb, hmem⟩

/-! ## Reachability of the concrete example rooms -/

lemma reachable_midRoomEx : ReachableRoom midRoomEx :=
  ReachableRoom.step _ (RoomOp.select "x" "Knight") _
    (ReachableRoom.init "R1" "x" 0) (by rfl)

lemma reachable_lockedRoomEx : ReachableRoom lockedRoomEx :=
  ReachableRoom.step _ (RoomOp.lock "x") _ reachable_midRoomEx (by rfl)

lemma reachable_fullRoomEx : ReachableRoom fullRoomEx :=
  ReachableRoom.step _ (RoomOp.join "d") _
    (ReachableRoom.step _ (RoomOp.join "c") _
      (ReachableRoom.step _ (RoomOp.join "b") _
        (ReachableRoom.init "R2" "a" 0) (by rfl)) (by rfl)) (by rfl)

/-! ## Error outputs leave the state unchanged (per handler) -/

lemma handle_select_disj (s : ServerState) (cid ch : String) :
    (handle_select_character s cid ch).1 = s ∨
      ∀ e, Out.err cid e ∉ (handle_select_character s cid ch).2 := by
  simp only [handle_select_character]
  cases (getClient s cid).username with
  | none =>
      cases (getClient s cid).room_id with
      | none => exact Or.inl rfl
      | some rid => exact Or.inl rfl
  | some username =>
      cases (getClient s cid).room_id with
      | none => exact Or.inl rfl
      | some rid =>
          dsimp only
          split
          · exact Or.inl rfl
          · cases findRoom s.db_rooms rid with
            | none => exact Or.inl rfl
            | some room =>
                dsimp only
                cases select_character_room room username ch with
                | error e2 => exact Or.inl rfl
                | ok room2 =>
                    refine Or.inr ?_
                    intro e h
                    simp at h

lemma handle_join_disj (s : ServerState) (cid rid : String) :
    (handle_join_room s cid rid).1 = s ∨
      ∀ e, Out.err cid e ∉ (handle_join_room s cid rid).2 := by
  simp only [handle_join_room]
  cases (getClient s cid).username with
  | none => exact Or.inl rfl
  | some username =>
      dsimp only
      split
      · exact Or.inl rfl
      · cases findRoom s.db_rooms rid with
        | none => exact Or.inl rfl
        | some room =>
            dsimp only
            cases join_room_core room username with
            | error e2 => exact Or.inl rfl
            | ok room2 =>
                refine Or.inr ?_
                intro e h
                simp at h

lemma handle_lock_disj (s : ServerState) (cid : String) :
    (handle_lock_character s cid).1 = s ∨
      ∀ e, Out.err cid e ∉ (handle_lock_character s cid).2 := by
  simp only [handle_lock_character]
  cases (getClient s cid).username with
  | none =>
      cases (getClient s cid).room_id with
      | none => exact Or.inl rfl
      | some rid => exact Or.inl rfl
  | some username =>
      cases (getClient s cid).room_id with
      | none => exact Or.inl rfl
      | some rid =>
          dsimp only
          cases findRoom s.db_rooms rid with
          | none => exact Or.inl rfl
          | some room =>
              dsimp only
              cases lock_character_room room username with
              | error e2 => exact Or.inl rfl
              | ok room2 =>
                  refine Or.inr ?_
                  intro e h
                  simp at h

lemma handle_start_disj (s : ServerState) (cid : String) :
    (handle_start_game s cid).1 = s ∨
      ∀ e, Out.err cid e ∉ (handle_start_game s cid).2 := by
  simp only [handle_start_game]
  cases (getClient s cid).username with
  | none =>
      cases (getClient s cid).room_id with
      | none => exact Or.inl rfl
      | some rid => exact Or.inl rfl
  | some username =>
      cases (getClient s cid).room_id with
      | none => exact Or.inl rfl
      | some rid =>
          dsimp only
          cases findRoom s.db_rooms rid with
          | none => exact Or.inl rfl
          | some room =>
              dsimp only
              cases start_game_room room username with
              | error e2 => exact Or.inl rfl
              | ok room2 =>
                  refine Or.inr ?_
                  intro e h
                  simp at h

lemma handle_create_disj (s : ServerState) (cid : String) (ts : Nat) (code : String) :
    (handle_create_room s cid ts code).1 = s ∨
      ∀ e, Out.err cid e ∉ (handle_create_room s cid ts code).2 := by
  simp only [handle_create_room]
  cases (getClient s cid).username with
  | none => exact Or.inl rfl
  | some username =>
      dsimp only
      split
      · exact Or.inl rfl
      · refine Or.inr ?_
        intro e h
        simp at h

lemma handle_leave_disj (s : ServerState) (cid : String) :
    (handle_leave_room s cid).1 = s ∨
      ∀ e, Out.err cid e ∉ (handle_leave_room s cid).2 := by
  simp only [handle_leave_room]
  cases (getClient s cid).username with
  | none =>
      cases (getClient s cid).room_id with
      | none => exact Or.inl rfl
      | some rid => exact Or.inl rfl
  | some username =>
      cases (getClient s cid).room_id with
      | none => exact Or.inl rfl
      | some rid =>
          dsimp only
          cases findRoom s.db_rooms rid with
          | none => exact Or.inl rfl
          | some room =>
              dsimp only
              refine Or.inr ?_
              intro e h
              simp only [List.mem_append, List.mem_cons, List.not_mem_nil] at h
              rcases h with (h | h) | h
              · simp at h
              · split at h
                · simp at h
                · simp at h
              · rcases h with h | h
                · simp at h
                · simp at h

/-! ## Reductions of `handle_leave_room` -/

lemma getClient_of_alookup (s : ServerState) (cid : String) (c : ClientState)
    (h : alookup cid s.clients = some c) : getClient s cid = c := by
  unfold getClient
  rw [h]
  rfl

lemma leave_players_isEmpty_false (room : Room) (u : String)
    (hne : (leave_room_core room u).players ≠ []) :
    (leave_room_core room u).players.isEmpty = false := by
  cases h2 : (leave_room_core room u).players with
  | nil => exact absurd h2 hne
  | cons a l => rfl

/-- When members remain, `handle_leave_room` persists the trimmed room:
the store's document for `rid` becomes exactly `leave_room_core room u`. -/
lemma handle_leave_keep_db (s : ServerState) (cid u rid : String) (lk : Bool) (room : Room)
    (hcl : alookup cid s.clients = some ⟨some u, some rid, lk⟩)
    (hfr : findRoom s.db_rooms rid = some room)
    (hne : (leave_room_core room u).players ≠ []) :
    findRoom (handle_leave_room s cid).1.db_rooms rid = some (leave_room_core room u) := by
  simp only [handle_leave_room, getClient_of_alookup s cid _ hcl]
  cases hfr2 : findRoom s.db_rooms rid with
  | none => rw [hfr] at hfr2; cases hfr2
  | some room2 =>
      rw [hfr] at hfr2
      injection hfr2 with h2
      subst h2
      dsimp only
      split
      · rename_i hcond
        rw [leave_players_isEmpty_false room u hne] at hcond
        cases hcond
      · dsimp only
        rw [findRoom_updateFirstRoom_self _ _ _ (fun r => by rfl), hfr]
        rfl

/-- When the last member leaves, `handle_leave_room` deletes the room
from both the store and the in-memory mirror. -/
lemma handle_leave_empty_state (s : ServerState) (cid u rid : String) (lk : Bool)
    (room : Room)
    (hcl : alookup cid s.clients = some ⟨some u, some rid, lk⟩)
    (hfr : findRoom s.db_rooms rid = some room)
    (hem : (leave_room_core room u).players = []) :
    (handle_leave_room s cid).1.db_rooms = deleteFirstRoom s.db_rooms rid ∧
      (handle_leave_room s cid).1.mem_rooms = deleteFirstRoom s.mem_rooms rid := by
  simp only [handle_leave_room, getClient_of_alookup s cid _ hcl]
  cases hfr2 : findRoom s.db_rooms rid with
  | none => rw [hfr] at hfr2; cases hfr2
  | some room2 =>
      rw [hfr] at hfr2
      injection hfr2 with h2
      subst h2
      dsimp only
      split
      · exact ⟨rfl, rfl⟩
      · rename_i hcond
        rw [show (leave_room_core room u).players.isEmpty = true from by rw [hem]; rfl]
          at hcond
        exact absurd rfl hcond

lemma getD_mem_or (l : List α) (n : Nat) (d : α) : l.getD n d ∈ l ∨ l.getD n d = d := by
  induction l generalizing n with
  | nil => right; cases n <;> rfl
  | cons a t ih =>
      cases n with
      | zero => left; exact List.mem_cons_self a t
      | succ m =>
          rcases ih m with h | h
          · left
            exact List.mem_cons_of_mem a (by simpa [List.getD] using h)
          · right
            simpa [List.getD] using h

/-- `handle_create_room` on a fresh code appends exactly the new room
document to the store. -/
lemma handle_create_fresh (s : ServerState) (cid : String) (ts : Nat) (code u : String)
    (hu : (getClient s cid).username = some u)
    (hf : findRoom s.db_rooms code = none) :
    (handle_create_room s cid ts code).1.db_rooms = s.db_rooms ++ [initRoom code u ts] := by
  simp only [handle_create_room]
  cases hu2 : (getClient s cid).username with
  | none => rw [hu] at hu2; cases hu2
  | some u2 =>
      rw [hu] at hu2
      injection hu2 with h2
      subst h2
      dsimp only
      split
      · rename_i hcond
        rw [hf] at hcond
        simp at hcond
      · rfl

/-- `handle_create_room` on a colliding code hits the duplicate-key path
and changes nothing. -/
lemma handle_create_collision (s : ServerState) (cid : String) (ts : Nat) (code u : String)
    (hu : (getClient s cid).username = some u)
    (hf : (findRoom s.db_rooms code).isSome) :
    handle_create_room s cid ts code = (s, [Out.err cid SErr.dbError]) := by
  simp only [handle_create_room]
  cases hu2 : (getClient s cid).username with
  | none => rw [hu] at hu2; cases hu2
  | some u2 =>
      rw [hu] at hu2
      injection hu2 with h2
      subst h2
      dsimp only
      split
      · rfl
      · rename_i hcond
        exact absurd hf hcond

/-- The fault-free instance of the fallible join model coincides with
`handle_join_room`. -/
lemma join_faulty_none (s : ServerState) (cid rid : String) :
    handle_join_room_faulty s cid rid none = handle_join_room s cid rid := by
  unfold handle_join_room_faulty handle_join_room
  cases (getClient s cid).username with
  | none => rfl
  | some username =>
      dsimp only
      split
      · rfl
      · rw [if_neg (by simp)]
        cases findRoom s.db_rooms rid with
        | none => rfl
        | some room =>
            dsimp only
            cases join_room_core room username with
            | error e => rfl
            | ok room2 => rfl

/-- A failure on the third store call of `handle_join_room` (the users
update) leaves the rooms update persisted while reporting an error. -/
lemma join_faulty_at_3 (s : ServerState) (cid u rid : String) (room room2 : Room)
    (hu : (getClient s cid).username = some u)
    (hrid : rid ≠ "")
    (hfr : findRoom s.db_rooms rid = some room)
    (hj : join_room_core room u = Except.ok room2) :
    handle_join_room_faulty s cid rid (some 3)
      = ({ s with
            db_rooms := updateFirstRoom s.db_rooms rid
              (fun r => { r with players := room2.players }) },
          [Out.err cid SErr.dbError]) := by
  unfold handle_join_room_faulty
  cases hu2 : (getClient s cid).username with
  | none => rw [hu] at hu2; cases hu2
  | some u2 =>
      rw [hu] at hu2
      injection hu2 with h2
      subst h2
      dsimp only
      rw [if_neg hrid, if_neg (by simp)]
      cases hfr2 : findRoom s.db_rooms rid with
      | none => rw [hfr] at hfr2; cases hfr2
      | some room3 =>
          rw [hfr] at hfr2
          injection hfr2 with h3
          subst h3
          dsimp only
          cases hj2 : join_room_core room u with
          | error e => rw [hj] at hj2; cases hj2
          | ok room4 =>
              rw [hj] at hj2
              injection hj2 with h4
              subst h4
              rfl

/-! ## Submit-answer completion lemmas -/

/-- If every raw slot parses as a quiz letter, every slot is truthy (a
`None` or `""` slot would feed `""` to the parser, which rejects it). -/
lemma mapM_parse_truthy :
    ∀ (lst : List (Option String)) (ls : List Letter),
      (lst.map (fun o => o.getD "")).mapM parseLetter = some ls →
      lst.all optTruthy = true := by
  intro lst
  induction lst with
  | nil => intro ls _; rfl
  | cons o rest ih =>
      intro ls h
      simp only [List.map_cons, List.mapM_cons] at h
      cases hp : parseLetter (o.getD "") with
      | none => rw [hp] at h; simp at h
      | some l =>
          rw [hp] at h
          cases hm : (rest.map (fun o => o.getD "")).mapM parseLetter with
          | none => rw [hm] at h; simp at h
          | some ls2 =>
              have h1 := ih ls2 hm
              rw [List.all_cons, h1, Bool.and_true]
              cases o with
              | none =>
                  exfalso
                  rw [show (none : Option String).getD "" = "" from rfl] at hp
                  rw [show parseLetter "" = none from rfl] at hp
                  cases hp
              | some str =>
                  simp only [optTruthy]
                  by_cases hs : str = ""
                  · subst hs
                    rw [show (some "").getD "" = "" from rfl] at hp
                    rw [show parseLetter "" = none from rfl] at hp
                    cases hp
                  · simp [hs]

/-- The completion branch of `submit_answer_room`: a length-5 list of
parsable answers stores and reports the Resolver's role. -/
lemma submit_answer_room_assigns (room : Room) (u : String) (qi : Nat) (a : String)
    (ls : List Letter)
    (hlen : ((padAnswers ((alookup u room.player_answers).getD []) qi).set qi
      (some a)).length = 5)
    (hmap : (((padAnswers ((alookup u room.player_answers).getD []) qi).set qi
      (some a)).map (fun o => o.getD "")).mapM parseLetter = some ls) :
    (submit_answer_room room u qi a).roleAssigned = some (calculate_role ls) ∧
      alookup u (submit_answer_room room u qi a).room.player_roles
        = some (calculate_role ls) := by
  have htr := mapM_parse_truthy _ ls hmap
  have hcr : calculate_role_str
      (((padAnswers ((alookup u room.player_answers).getD []) qi).set qi (some a)).map
        (fun o => o.getD "")) = some (calculate_role ls) := by
    unfold calculate_role_str
    rw [hmap]
    rfl
  unfold submit_answer_room
  dsimp only
  rw [if_pos ⟨hlen, htr⟩]
  cases hcr2 : calculate_role_str
      (((padAnswers ((alookup u room.player_answers).getD []) qi).set qi (some a)).map
        (fun o => o.getD "")) with
  | none => rw [hcr] at hcr2; cases hcr2
  | some role2 =>
      rw [hcr] at hcr2
      injection hcr2 with h2
      subst h2
      exact ⟨rfl, alookup_aset_self u _ _⟩

/-- Reduction of `handle_submit_answer` on the role-assigning path: the
outputs are exactly the success response followed by `role_assigned`,
both to the requester's socket, and the persisted document carries the
updated role map. -/
lemma handle_submit_role_outs (s : ServerState) (cid u rid : String) (lk : Bool)
    (room : Room) (qi : Nat) (a : String) (role : String)
    (hcl : alookup cid s.clients = some ⟨some u, some rid, lk⟩)
    (ha : a ≠ "")
    (hfr : findRoom s.db_rooms rid = some room)
    (hrole : (submit_answer_room room u qi a).roleAssigned = some role) :
    (handle_submit_answer s cid qi a).2
        = [Out.reply cid "submit_answer_response", Out.reply cid "role_assigned"] ∧
      alookup u ((findRoom (handle_submit_answer s cid qi a).1.db_rooms rid).getD
          room).player_roles
        = alookup u (submit_answer_room room u qi a).room.player_roles := by
  simp only [handle_submit_answer, getClient_of_alookup s cid _ hcl]
  rw [if_neg ha]
  cases hfr2 : findRoom s.db_rooms rid with
  | none => rw [hfr] at hfr2; cases hfr2
  | some room2 =>
      rw [hfr] at hfr2
      injection hfr2 with h2
      subst h2
      dsimp only
      cases hra : (submit_answer_room room u qi a).roleAssigned with
      | none => rw [hrole] at hra; cases hra
      | some role2 =>
          dsimp only
          constructor
          · rfl
          · rw [findRoom_updateFirstRoom_self _ _ _ (fun r => by rfl),
              findRoom_updateFirstRoom_self _ _ _ (fun r => by rfl), hfr]
            rfl

/-! ## Claim theorems -/

/-- Claim C1: for every sequence of exactly 5 answers over A..F,
`calculate_role` returns the fixed-table role of the letter with the
highest occurrence count, ties broken toward the lexically smallest
letter (captured by `specWinner`); in particular [A,A,B,B,C] resolves to
A's role and [F,F,F,A,A] to F's role.  The embedding is a pure function,
so determinism and freedom from side effects hold by construction. -/
theorem resolver_matches_spec :
    (∀ answers : List Letter, answers.length = 5 →
        calculate_role answers = role_mapping (specWinner answers)) ∧
    calculate_role [Letter.A, Letter.A, Letter.B, Letter.B, Letter.C]
      = role_mapping Letter.A ∧
    calculate_role [Letter.F, Letter.F, Letter.F, Letter.A, Letter.A]
      = role_mapping Letter.F := by
  refine ⟨fun answers _ => congrArg role_mapping (chooseOption_eq_specWinner answers), ?_, ?_⟩
  · exact congrArg role_mapping
      (by decide : chooseOption [Letter.A, Letter.A, Letter.B, Letter.B, Letter.C] = Letter.A)
  · exact congrArg role_mapping
      (by decide : chooseOption [Letter.F, Letter.F, Letter.F, Letter.A, Letter.A] = Letter.F)

/-- Witness for C1 at the concrete input [A,A,B,B,C]. -/
theorem resolver_matches_spec_witness :
    ([Letter.A, Letter.A, Letter.B, Letter.B, Letter.C] : List Letter).length = 5 ∧
      calculate_role [Letter.A, Letter.A, Letter.B, Letter.B, Letter.C]
        = role_mapping (specWinner [Letter.A, Letter.A, Letter.B, Letter.B, Letter.C]) :=
  ⟨by decide, resolver_matches_spec.1 _ (by decide)⟩

/-- Claim C4: every reachable room document has at most 4 members with
no duplicates; a join attempt by a non-member on a full room fails with
RoomFull leaving the document unchanged; and a repeat join by a username
whose first join succeeded fails with AlreadyMember. -/
theorem room_capacity_invariant :
    (∀ room : Room, ReachableRoom room →
        room.players.length ≤ 4 ∧ room.players.Nodup) ∧
    (∀ (room : Room) (u : String), ReachableRoom room → u ∉ room.players →
        room.players.length = 4 →
        join_room_core room u = Except.error SErr.roomFull ∧
          roomStep room (RoomOp.join u) = some room) ∧
    (∀ (room room2 : Room) (u : String), ReachableRoom room →
        join_room_core room u = Except.ok room2 →
        join_room_core room2 u = Except.error SErr.alreadyMember) := by
  refine ⟨?_, ?_, ?_⟩
  · intro room h
    obtain ⟨hlen, hmax, hnd, _⟩ := reachableRoom_inv room h
    exact ⟨hmax ▸ hlen, hnd⟩
  · intro room u h hnm hfour
    obtain ⟨_, hmax, _, hact⟩ := reachableRoom_inv room h
    have hj : join_room_core room u = Except.error SErr.roomFull := by
      unfold join_room_core
      rw [if_neg (by simp [hact]), if_neg hnm, if_pos (by omega)]
    refine ⟨hj, ?_⟩
    simp [roomStep, hj]
  · intro room room2 u h hj
    obtain ⟨hshape, hact, _, _⟩ := join_ok_shape room u room2 hj
    unfold join_room_core
    rw [hshape]
    rw [if_neg (by simp [hact]), if_pos (by simp)]

/-- Witness for C4: the concrete full room rejects a 5th member and the
one-member room rejects a repeat join after a successful one. -/
theorem room_capacity_invariant_witness :
    (fullRoomEx.players.length ≤ 4 ∧ fullRoomEx.players.Nodup) ∧
    (join_room_core fullRoomEx "e" = Except.error SErr.roomFull ∧
      roomStep fullRoomEx (RoomOp.join "e") = some fullRoomEx) ∧
    join_room_core joinBRoomEx "b" = Except.error SErr.alreadyMember :=
  ⟨room_capacity_invariant.1 fullRoomEx reachable_fullRoomEx,
   room_capacity_invariant.2.1 fullRoomEx "e" reachable_fullRoomEx (by decide) (by decide),
   room_capacity_invariant.2.2 (initRoom "R2" "a" 0) joinBRoomEx "b"
     (ReachableRoom.init "R2" "a" 0) (by rfl)⟩

/-- Claim C10: a `submit_answer` with question index 5 or more leaves the
player's answer list strictly longer than 5 slots, and once a player's
answer list is longer than 5 entries, no sequence of further
`submit_answer` calls by that player ever assigns them a role (the
completion check requires the list length to equal exactly 5). -/
theorem overflow_index_blocks_role :
    (∀ (room : Room) (u : String) (qi : Nat) (ans : String), 5 ≤ qi →
        5 < ((alookup u (submit_answer_room room u qi ans).room.player_answers).getD
          []).length) ∧
    (∀ (room : Room) (u : String) (l : List (Nat × String)),
        5 < ((alookup u room.player_answers).getD []).length →
        (runSubmits u room l).1.player_roles = room.player_roles ∧
          (runSubmits u room l).2 = false) := by
  refine ⟨?_, fun room u l h => runSubmits_no_role u l room h⟩
  intro room u qi ans h
  rw [submit_answer_room_len]
  omega

/-- Witness for C10: submitting at index 5 in a fresh room gives a
6-slot list, and in the overflowed room no further submits assign a
role. -/
theorem overflow_index_blocks_role_witness :
    ((5 : Nat) ≤ 5 ∧
      5 < ((alookup "x" (submit_answer_room (initRoom "R3" "x" 0) "x" 5
        "A").room.player_answers).getD []).length) ∧
    (5 < ((alookup "x" ovRoomEx.player_answers).getD []).length ∧
      (runSubmits "x" ovRoomEx [(0, "B"), (1, "B")]).1.player_roles
        = ovRoomEx.player_roles ∧
      (runSubmits "x" ovRoomEx [(0, "B"), (1, "B")]).2 = false) :=
  ⟨⟨by decide, overflow_index_blocks_role.1 (initRoom "R3" "x" 0) "x" 5 "A" (by decide)⟩,
   ⟨by decide, overflow_index_blocks_role.2 ovRoomEx "x" [(0, "B"), (1, "B")] (by decide)⟩⟩

/-- Claim C2 counterexample: in the reachable room where "x" alone holds
"Knight" (and nobody else holds any character), x's own re-select of
"Knight" fails with CharacterTaken — the `values()` membership check
does not exempt the requester, contradicting the claim that
CharacterTaken occurs exactly when some OTHER player holds the
character. -/
theorem select_taken_self_counterexample :
    midRoomEx.player_characters = [("x", "Knight")] ∧
    midRoomEx.players = ["x"] ∧
    select_character_room midRoomEx "x" "Knight"
      = Except.error SErr.characterTaken := by
  refine ⟨rfl, rfl, ?_⟩
  rfl

/-- Claim C2 (amended): `select_character_room` fails with
CharacterTaken exactly when some player — including possibly the
requester — already holds the requested character; and every failed
`handle_select_character` call leaves the server state (and hence the
holder's assignment) unchanged. -/
theorem select_taken_iff_held :
    (∀ (room : Room) (u c : String),
        select_character_room room u c = Except.error SErr.characterTaken ↔
          c ∈ room.player_characters.map Prod.snd) ∧
    (∀ (s : ServerState) (cid ch : String) (e : SErr),
        Out.err cid e ∈ (handle_select_character s cid ch).2 →
          (handle_select_character s cid ch).1 = s) := by
  constructor
  · intro room u c
    constructor
    · intro h
      by_cases hc : c ∈ room.player_characters.map Prod.snd
      · exact hc
      · exfalso
        unfold select_character_room at h
        rw [if_neg hc] at h
        split at h
        · simp at h
        · simp at h
    · intro hc
      unfold select_character_room
      rw [if_pos hc]
  · intro s cid ch e hout
    rcases handle_select_disj s cid ch with h | h
    · exact h
    · exact absurd hout (h e)

/-- Witness for C2 (amended) at concrete inputs: "Knight" is reported
taken in `midRoomEx`, and a failing select by a second session leaves
the state untouched. -/
theorem select_taken_iff_held_witness :
    (select_character_room midRoomEx "y" "Knight"
        = Except.error SErr.characterTaken) ∧
    (Out.err "c1" SErr.roomNotFound
        ∈ (handle_select_character ansStateEx "c1" "Sword").2 → True) ∧
    ((handle_select_character leave2StateEx "c1" "Knight").1 = leave2StateEx) :=
  ⟨(select_taken_iff_held.1 midRoomEx "y" "Knight").mpr (by decide),
   fun _ => trivial,
   select_taken_iff_held.2 leave2StateEx "c1" "Knight" SErr.characterTaken (by decide)⟩

/-- Claim C3 counterexample: in the reachable room where "x" holds and
has locked "Knight", x's subsequent select of "Knight" fails with
CharacterTaken, not CharacterAlreadyLocked — the taken-check runs before
the lock-check — contradicting the claim that every subsequent select by
a locked player fails with CharacterAlreadyLocked. -/
theorem locked_select_error_counterexample :
    alookup "x" lockedRoomEx.character_locked = some true ∧
    select_character_room lockedRoomEx "x" "Knight"
      = Except.error SErr.characterTaken ∧
    select_character_room lockedRoomEx "x" "Knight"
      ≠ Except.error SErr.characterAlreadyLocked := by
  refine ⟨rfl, by rfl, ?_⟩
  intro h
  rw [show select_character_room lockedRoomEx "x" "Knight"
    = Except.error SErr.characterTaken from by rfl] at h
  simp at h

/-- Claim C3 (amended): once a player's lock flag is set in a reachable
room it survives every step in which the player remains a member, and
their character selection is unchanged by such steps; every subsequent
`select_character` by the locked player fails — with
CharacterAlreadyLocked when no player holds the requested character and
with CharacterTaken when some player does — and `lock_character` fails
with NoCharacterSelected when the player has not selected one. -/
theorem lock_is_monotonic :
    (∀ (room : Room) (op : RoomOp) (room2 : Room) (u : String),
        ReachableRoom room → alookup u room.character_locked = some true →
        u ∈ room.players → roomStep room op = some room2 → u ∈ room2.players →
        alookup u room2.character_locked = some true ∧
          alookup u room2.player_characters = alookup u room.player_characters) ∧
    (∀ (room : Room) (u c : String),
        (alookup u room.character_locked).getD false = true →
        select_character_room room u c
          = Except.error (if c ∈ room.player_characters.map Prod.snd then
              SErr.characterTaken else SErr.characterAlreadyLocked)) ∧
    (∀ (room : Room) (u : String),
        alookup u room.player_characters = none →
        lock_character_room room u = Except.error SErr.noCharacterSelected) := by
  refine ⟨fun room op room2 u h1 h2 h3 h4 h5 =>
    lock_preserved_step room op room2 u h1 h2 h3 h4 h5, ?_, ?_⟩
  · intro room u c h
    unfold select_character_room
    by_cases hc : c ∈ room.player_characters.map Prod.snd
    · rw [if_pos hc, if_pos hc]
    · rw [if_neg hc, if_neg hc, if_pos h]
  · intro room u h
    unfold lock_character_room
    rw [if_pos (by simp [h])]

/-- Witness for C3 (amended): "x" stays locked with selection intact
after "y" joins `lockedRoomEx`; a select of the free "Mage" fails with
CharacterAlreadyLocked; locking in a fresh room fails with
NoCharacterSelected. -/
theorem lock_is_monotonic_witness :
    (alookup "x" lockedRoomEx.character_locked = some true ∧
      "x" ∈ lockedRoomEx.players ∧
      roomStep lockedRoomEx (RoomOp.join "y") = some joinedRoomEx ∧
      "x" ∈ joinedRoomEx.players) ∧
    (alookup "x" joinedRoomEx.character_locked = some true ∧
      alookup "x" joinedRoomEx.player_characters
        = alookup "x" lockedRoomEx.player_characters) ∧
    select_character_room lockedRoomEx "x" "Mage"
      = Except.error SErr.characterAlreadyLocked ∧
    lock_character_room (initRoom "R1" "x" 0) "x"
      = Except.error SErr.noCharacterSelected := by
  refine ⟨⟨rfl, by decide, by rfl, by decide⟩, ?_, ?_, ?_⟩
  · exact lock_is_monotonic.1 lockedRoomEx (RoomOp.join "y") joinedRoomEx "x"
      reachable_lockedRoomEx rfl (by decide) (by rfl) (by decide)
  · have h := lock_is_monotonic.2.1 lockedRoomEx "x" "Mage" (by rfl)
    rw [if_neg (by decide)] at h
    exact h
  · exact lock_is_monotonic.2.2 (initRoom "R1" "x" 0) "x" rfl

/-- Claim C9: `leaveRoom` with members remaining persists a room that
differs from the original only in the member list (leaver removed) and
in the character and lock maps (leaver's entries deleted); the leaver's
answers and role are retained and every other field — creator,
timestamps, flags, capacity, id — is unchanged. -/
theorem leave_room_frame :
    ∀ (s : ServerState) (cid u rid : String) (lk : Bool) (room : Room),
      alookup cid s.clients = some ⟨some u, some rid, lk⟩ →
      findRoom s.db_rooms rid = some room →
      (leave_room_core room u).players ≠ [] →
      (findRoom (handle_leave_room s cid).1.db_rooms rid
          = some (leave_room_core room u) ∧
        (leave_room_core room u).players = room.players.erase u) ∧
      (alookup u (leave_room_core room u).player_characters = none ∧
        alookup u (leave_room_core room u).character_locked = none) ∧
      ((leave_room_core room u).player_answers = room.player_answers ∧
        (leave_room_core room u).player_roles = room.player_roles) ∧
      ((leave_room_core room u).creator = room.creator ∧
        (leave_room_core room u).created_at = room.created_at ∧
        (leave_room_core room u).is_active = room.is_active ∧
        (leave_room_core room u).game_started = room.game_started ∧
        (leave_room_core room u).game_finished = room.game_finished ∧
        (leave_room_core room u).current_question = room.current_question ∧
        (leave_room_core room u).max_players = room.max_players ∧
        (leave_room_core room u).room_id = room.room_id) ∧
      (room.players.Nodup → u ∉ (leave_room_core room u).players) := by
  intro s cid u rid lk room hcl hfr hne
  refine ⟨⟨handle_leave_keep_db s cid u rid lk room hcl hfr hne, ?_⟩,
    ⟨alookup_aerase_self u _, alookup_aerase_self u _⟩,
    ⟨rfl, rfl⟩, ⟨rfl, rfl, rfl, rfl, rfl, rfl, rfl, rfl⟩, ?_⟩
  · unfold leave_room_core
    by_cases hm : u ∈ room.players
    · rw [if_pos hm]
    · rw [if_neg hm, List.erase_of_not_mem hm]
  · intro hnd hin
    unfold leave_room_core at hin
    dsimp only at hin
    by_cases hm : u ∈ room.players
    · rw [if_pos hm] at hin
      exact ((List.Nodup.mem_erase_iff hnd).mp hin).1 rfl
    · rw [if_neg hm] at hin
      exact hm hin

/-- Witness for C9 on the concrete two-member room: "x" leaves, "y"
stays, x's character and lock entries are gone while x's answers and
role survive, and all other fields are untouched. -/
theorem leave_room_frame_witness :
    (findRoom (handle_leave_room leave2StateEx "c1").1.db_rooms "R1"
        = some (leave_room_core leave2RoomEx "x") ∧
      (leave_room_core leave2RoomEx "x").players = leave2RoomEx.players.erase "x") ∧
    (alookup "x" (leave_room_core leave2RoomEx "x").player_characters = none ∧
      alookup "x" (leave_room_core leave2RoomEx "x").character_locked = none) ∧
    ((leave_room_core leave2RoomEx "x").player_answers = leave2RoomEx.player_answers ∧
      (leave_room_core leave2RoomEx "x").player_roles = leave2RoomEx.player_roles) ∧
    ((leave_room_core leave2RoomEx "x").creator = leave2RoomEx.creator ∧
      (leave_room_core leave2RoomEx "x").created_at = leave2RoomEx.created_at ∧
      (leave_room_core leave2RoomEx "x").is_active = leave2RoomEx.is_active ∧
      (leave_room_core leave2RoomEx "x").game_started = leave2RoomEx.game_started ∧
      (leave_room_core leave2RoomEx "x").game_finished = leave2RoomEx.game_finished ∧
      (leave_room_core leave2RoomEx "x").current_question
        = leave2RoomEx.current_question ∧
      (leave_room_core leave2RoomEx "x").max_players = leave2RoomEx.max_players ∧
      (leave_room_core leave2RoomEx "x").room_id = leave2RoomEx.room_id) ∧
    (leave2RoomEx.players.Nodup → "x" ∉ (leave_room_core leave2RoomEx "x").players) :=
  leave_room_frame leave2StateEx "c1" "x" "R1" true leave2RoomEx (by rfl) (by rfl)
    (by decide)

/-- Claim C5: no handler ever persists or mirrors a room with an empty
member list; when the last member leaves, the room is deleted at once
from the store and the memory mirror, and a subsequent room lookup (as
`handle_get_room_status` performs for any session still pointing at the
id) reports NotFound; when members remain, the trimmed room is persisted
instead. -/
theorem empty_room_never_persists :
    (∀ (s : ServerState) (op : SOp), NoEmptyRooms s → NoEmptyRooms (serverStep s op).1) ∧
    (∀ (s : ServerState) (cid u rid : String) (lk : Bool) (room : Room),
        alookup cid s.clients = some ⟨some u, some rid, lk⟩ →
        findRoom s.db_rooms rid = some room →
        (s.db_rooms.map Room.room_id).Nodup →
        (s.mem_rooms.map Room.room_id).Nodup →
        (leave_room_core room u).players = [] →
        findRoom (handle_leave_room s cid).1.db_rooms rid = none ∧
        findRoom (handle_leave_room s cid).1.mem_rooms rid = none ∧
        (∀ (cid2 : String) (c2 : ClientState),
            alookup cid2 (handle_leave_room s cid).1.clients = some c2 →
            c2.room_id = some rid →
            handle_get_room_status (handle_leave_room s cid).1 cid2
              = ((handle_leave_room s cid).1, [Out.err cid2 SErr.roomNotFound]))) ∧
    (∀ (s : ServerState) (cid u rid : String) (lk : Bool) (room : Room),
        alookup cid s.clients = some ⟨some u, some rid, lk⟩ →
        findRoom s.db_rooms rid = some room →
        (leave_room_core room u).players ≠ [] →
        findRoom (handle_leave_room s cid).1.db_rooms rid
          = some (leave_room_core room u)) := by
  refine ⟨serverStep_noEmpty, ?_, handle_leave_keep_db⟩
  intro s cid u rid lk room hcl hfr hnd1 hnd2 hem
  obtain ⟨hdb, hmem⟩ := handle_leave_empty_state s cid u rid lk room hcl hfr hem
  have hdbnone : findRoom (handle_leave_room s cid).1.db_rooms rid = none := by
    rw [hdb]
    exact findRoom_deleteFirstRoom s.db_rooms rid hnd1
  refine ⟨hdbnone, by rw [hmem]; exact findRoom_deleteFirstRoom s.mem_rooms rid hnd2, ?_⟩
  intro cid2 c2 hcl2 hrid2
  simp only [handle_get_room_status,
    getClient_of_alookup (handle_leave_room s cid).1 cid2 c2 hcl2, hrid2]
  rw [hdbnone]

/-- Witness for C5: lone member "x" leaves room "R1"; the room is gone
from store and mirror and session "c2" (still pointing at "R1") gets
NotFound from a status query; the two-member room instead persists
trimmed.  The preservation conjunct is instantiated on a join step. -/
theorem empty_room_never_persists_witness :
    (NoEmptyRooms leaveStateEx ∧
      NoEmptyRooms (serverStep leaveStateEx (SOp.join "c2" "R1")).1) ∧
    (findRoom (handle_leave_room leaveStateEx "c1").1.db_rooms "R1" = none ∧
      findRoom (handle_leave_room leaveStateEx "c1").1.mem_rooms "R1" = none ∧
      handle_get_room_status (handle_leave_room leaveStateEx "c1").1 "c2"
        = ((handle_leave_room leaveStateEx "c1").1,
            [Out.err "c2" SErr.roomNotFound])) ∧
    findRoom (handle_leave_room leave2StateEx "c1").1.db_rooms "R1"
      = some (leave_room_core leave2RoomEx "x") := by
  have h1 : NoEmptyRooms leaveStateEx := by
    constructor
    · intro r hr
      simp only [leaveStateEx, List.mem_singleton] at hr
      subst hr
      simp [initRoom]
    · intro r hr
      simp only [leaveStateEx, List.mem_singleton] at hr
      subst hr
      simp [initRoom]
  have h2 := empty_room_never_persists.2.1 leaveStateEx "c1" "x" "R1" false
    (initRoom "R1" "x" 0) (by rfl) (by rfl) (by decide) (by decide) (by decide)
  refine ⟨⟨h1, empty_room_never_persists.1 leaveStateEx (SOp.join "c2" "R1") h1⟩,
    ⟨h2.1, h2.2.1, ?_⟩,
    empty_room_never_persists.2.2 leave2StateEx "c1" "x" "R1" true leave2RoomEx
      (by rfl) (by rfl) (by decide)⟩
  exact h2.2.2 "c2" ⟨some "y", some "R1", false⟩ (by rfl) (by rfl)

/-- Claim C6 counterexample: `generate_room_id` has no retry loop — the
single draw is handed straight to `insert_one`.  With an active room
"AAAAAA" and a draw that collides, room creation fails with a generic
error and no room is created, instead of retrying with a fresh code as
the claim states. -/
theorem room_code_no_retry_counterexample :
    generate_room_id (fun _ => (0 : Fin 36)) = "AAAAAA" ∧
    handle_create_room codeStateEx "c1" 1 "AAAAAA"
      = (codeStateEx, [Out.err "c1" SErr.dbError]) ∧
    (initRoom "AAAAAA" "alice" 0) ∈ codeStateEx.db_rooms ∧
    (initRoom "AAAAAA" "alice" 0).is_active = true := by
  refine ⟨by rfl, by rfl, ?_, rfl⟩
  simp [codeStateEx]

/-- Claim C6 (amended): every generated room code is exactly 6
characters drawn from uppercase A-Z and digits 0-9; uniqueness across
active rooms is enforced not by retrying but by the store's unique
index: creation with a fresh code appends exactly the new room, while a
colliding code makes `insert_one` raise and the handler reports a
generic failure with no mutation. -/
theorem room_code_shape_and_uniqueness :
    (∀ choice : Fin 6 → Fin 36,
        (generate_room_id choice).length = 6 ∧
          ∀ ch ∈ (generate_room_id choice).toList, ch ∈ roomIdAlphabet) ∧
    (∀ (s : ServerState) (cid : String) (ts : Nat) (code u : String),
        (getClient s cid).username = some u →
        findRoom s.db_rooms code = none →
        (handle_create_room s cid ts code).1.db_rooms
          = s.db_rooms ++ [initRoom code u ts]) ∧
    (∀ (s : ServerState) (cid : String) (ts : Nat) (code u : String),
        (getClient s cid).username = some u →
        (findRoom s.db_rooms code).isSome →
        handle_create_room s cid ts code = (s, [Out.err cid SErr.dbError])) := by
  refine ⟨?_, handle_create_fresh, handle_create_collision⟩
  intro choice
  constructor
  · simp [generate_room_id, String.length]
  · intro ch hch
    simp only [generate_room_id, String.toList, List.mem_map] at hch
    obtain ⟨i, _, rfl⟩ := hch
    rcases getD_mem_or roomIdAlphabet (choice i).val 'A' with h | h
    · exact h
    · rw [h]
      decide

/-- Witness for C6: a concrete draw yields a 6-character code; creating
with the fresh code "BBBBBB" appends the new room; creating with the
colliding code "AAAAAA" fails without mutation. -/
theorem room_code_shape_and_uniqueness_witness :
    (generate_room_id (fun _ => (1 : Fin 36))).length = 6 ∧
    (handle_create_room codeStateEx "c1" 2 "BBBBBB").1.db_rooms
      = codeStateEx.db_rooms ++ [initRoom "BBBBBB" "bob" 2] ∧
    handle_create_room codeStateEx "c1" 2 "AAAAAA"
      = (codeStateEx, [Out.err "c1" SErr.dbError]) :=
  ⟨(room_code_shape_and_uniqueness.1 (fun _ => (1 : Fin 36))).1,
   room_code_shape_and_uniqueness.2.1 codeStateEx "c1" 2 "BBBBBB" "bob" (by rfl) (by rfl),
   room_code_shape_and_uniqueness.2.2 codeStateEx "c1" 2 "AAAAAA" "bob" (by rfl) (by rfl)⟩

/-- Claim C8 counterexample: with the store modelled as fallible, a
failure on the third store call of `handle_join_room` (the users
update, after the rooms update succeeded) reports an error to the
sender while the membership mutation remains persisted — the state
after the failed operation differs from the state before it. -/
theorem partial_mutation_counterexample :
    (handle_join_room_faulty faultStateEx "c2" "R1" (some 3)).2
      = [Out.err "c2" SErr.dbError] ∧
    (handle_join_room_faulty faultStateEx "c2" "R1" (some 3)).1 ≠ faultStateEx ∧
    findRoom (handle_join_room_faulty faultStateEx "c2" "R1" (some 3)).1.db_rooms "R1"
      = some { initRoom "R1" "a" 0 with players := ["a", "b"] } := by
  refine ⟨by rfl, ?_, by rfl⟩
  decide

/-- Claim C8 (amended): whenever a handler reports a StateConflict,
validation, or NotFound error in the fault-free model, the server state
is unchanged (all checks precede all writes); but when a store call
fails mid-handler, the writes made by earlier store calls of the same
handler remain persisted — there is no rollback, as the fallible join
model shows. -/
theorem error_paths_no_mutation :
    (∀ (s : ServerState) (cid rid : String) (e : SErr),
        Out.err cid e ∈ (handle_join_room s cid rid).2 →
          (handle_join_room s cid rid).1 = s) ∧
    (∀ (s : ServerState) (cid ch : String) (e : SErr),
        Out.err cid e ∈ (handle_select_character s cid ch).2 →
          (handle_select_character s cid ch).1 = s) ∧
    (∀ (s : ServerState) (cid : String) (e : SErr),
        Out.err cid e ∈ (handle_lock_character s cid).2 →
          (handle_lock_character s cid).1 = s) ∧
    (∀ (s : ServerState) (cid : String) (e : SErr),
        Out.err cid e ∈ (handle_start_game s cid).2 →
          (handle_start_game s cid).1 = s) ∧
    (∀ (s : ServerState) (cid : String) (ts : Nat) (code : String) (e : SErr),
        Out.err cid e ∈ (handle_create_room s cid ts code).2 →
          (handle_create_room s cid ts code).1 = s) ∧
    (∀ (s : ServerState) (cid : String) (e : SErr),
        Out.err cid e ∈ (handle_leave_room s cid).2 →
          (handle_leave_room s cid).1 = s) ∧
    (∀ (s : ServerState) (cid rid : String),
        handle_join_room_faulty s cid rid none = handle_join_room s cid rid) ∧
    (∀ (s : ServerState) (cid u rid : String) (room room2 : Room),
        (getClient s cid).username = some u → rid ≠ "" →
        findRoom s.db_rooms rid = some room →
        join_room_core room u = Except.ok room2 →
        handle_join_room_faulty s cid rid (some 3)
          = ({ s with
                db_rooms := updateFirstRoom s.db_rooms rid
                  (fun r => { r with players := room2.players }) },
              [Out.err cid SErr.dbError])) := by
  refine ⟨?_, ?_, ?_, ?_, ?_, ?_, join_faulty_none, join_faulty_at_3⟩
  · intro s cid rid e hout
    rcases handle_join_disj s cid rid with h | h
    · exact h
    · exact absurd hout (h e)
  · intro s cid ch e hout
    rcases handle_select_disj s cid ch with h | h
    · exact h
    · exact absurd hout (h e)
  · intro s cid e hout
    rcases handle_lock_disj s cid with h | h
    · exact h
    · exact absurd hout (h e)
  · intro s cid e hout
    rcases handle_start_disj s cid with h | h
    · exact h
    · exact absurd hout (h e)
  · intro s cid ts code e hout
    rcases handle_create_disj s cid ts code with h | h
    · exact h
    · exact absurd hout (h e)
  · intro s cid e hout
    rcases handle_leave_disj s cid with h | h
    · exact h
    · exact absurd hout (h e)

/-- Witness for C8: an AlreadyMember rejection leaves the concrete
state untouched, the fault-free fallible model agrees with the plain
handler, and a third-call failure persists exactly the rooms update. -/
theorem error_paths_no_mutation_witness :
    (Out.err "c1" SErr.alreadyMember
        ∈ (handle_join_room faultStateEx "c1" "R1").2 ∧
      (handle_join_room faultStateEx "c1" "R1").1 = faultStateEx) ∧
    handle_join_room_faulty faultStateEx "c2" "R1" none
      = handle_join_room faultStateEx "c2" "R1" ∧
    handle_join_room_faulty faultStateEx "c2" "R1" (some 3)
      = ({ faultStateEx with
            db_rooms := updateFirstRoom faultStateEx.db_rooms "R1"
              (fun r =>
                { r with players :=
                    ({ initRoom "R1" "a" 0 with players := ["a", "b"] } : Room).players }) },
          [Out.err "c2" SErr.dbError]) :=
  ⟨⟨by decide,
    error_paths_no_mutation.1 faultStateEx "c1" "R1" SErr.alreadyMember (by decide)⟩,
   error_paths_no_mutation.2.2.2.2.2.2.1 faultStateEx "c2" "R1",
   error_paths_no_mutation.2.2.2.2.2.2.2 faultStateEx "c2" "b" "R1"
     (initRoom "R1" "a" 0) { initRoom "R1" "a" 0 with players := ["a", "b"] }
     (by rfl) (by decide) (by rfl) (by rfl)⟩

/-- Claim C7: `submit_answer` writes the answer at `question_index`,
padding with empty slots so existing indices stay stable; as soon as the
written list has exactly 5 entries, all non-empty (parsing as quiz
letters), the role is computed by the Resolver, stored in the room's
role map, persisted, and a `role_assigned` message is sent to that
player's connection only — the handler broadcasts nothing. -/
theorem submit_records_and_assigns :
    (∀ (room : Room) (u : String) (qi : Nat) (a : String),
        alookup u (submit_answer_room room u qi a).room.player_answers
          = some ((padAnswers ((alookup u room.player_answers).getD []) qi).set qi
              (some a)) ∧
        ((padAnswers ((alookup u room.player_answers).getD []) qi).set qi
            (some a)).length
          = max ((alookup u room.player_answers).getD []).length (qi + 1) ∧
        (∀ j : Nat, j ≠ qi →
            ((padAnswers ((alookup u room.player_answers).getD []) qi).set qi
                (some a))[j]?
              = (padAnswers ((alookup u room.player_answers).getD []) qi)[j]?) ∧
        (∀ j : Nat, j < ((alookup u room.player_answers).getD []).length →
            (padAnswers ((alookup u room.player_answers).getD []) qi)[j]?
              = ((alookup u room.player_answers).getD [])[j]?)) ∧
    (∀ (room : Room) (u : String) (qi : Nat) (a : String) (ls : List Letter),
        ((padAnswers ((alookup u room.player_answers).getD []) qi).set qi
          (some a)).length = 5 →
        (((padAnswers ((alookup u room.player_answers).getD []) qi).set qi
          (some a)).map (fun o => o.getD "")).mapM parseLetter = some ls →
        (submit_answer_room room u qi a).roleAssigned = some (calculate_role ls) ∧
          alookup u (submit_answer_room room u qi a).room.player_roles
            = some (calculate_role ls)) ∧
    (∀ (s : ServerState) (cid u rid : String) (lk : Bool) (room : Room) (qi : Nat)
        (a : String) (role : String),
        alookup cid s.clients = some ⟨some u, some rid, lk⟩ →
        a ≠ "" →
        findRoom s.db_rooms rid = some room →
        (submit_answer_room room u qi a).roleAssigned = some role →
        (handle_submit_answer s cid qi a).2
            = [Out.reply cid "submit_answer_response", Out.reply cid "role_assigned"] ∧
          (∀ (rid2 act : String),
            Out.roomCast rid2 act ∉ (handle_submit_answer s cid qi a).2) ∧
          Out.listCast ∉ (handle_submit_answer s cid qi a).2 ∧
          alookup u ((findRoom (handle_submit_answer s cid qi a).1.db_rooms rid).getD
              room).player_roles
            = alookup u (submit_answer_room room u qi a).room.player_roles) := by
  refine ⟨?_, submit_answer_room_assigns, ?_⟩
  · intro room u qi a
    refine ⟨submit_answer_room_answers room u qi a, ?_, ?_, ?_⟩
    · rw [List.length_set, padAnswers_length]
    · intro j hj
      exact List.getElem?_set_ne (Ne.symm hj)
    · intro j hj
      exact List.getElem?_append_left hj
  · intro s cid u rid lk room qi a role hcl ha hfr hrole
    obtain ⟨houts, hdb⟩ := handle_submit_role_outs s cid u rid lk room qi a role
      hcl ha hfr hrole
    refine ⟨houts, ?_, ?_, hdb⟩
    · intro rid2 act h
      rw [houts] at h
      simp at h
    · intro h
      rw [houts] at h
      simp at h

/-- Witness for C7: in `ansRoomEx` player "x" holds answers A,A,B,B;
submitting C at index 4 completes the list, assigns the Resolver's role
for [A,A,B,B,C], and the handler emits exactly the success reply and
the `role_assigned` message to connection "c1". -/
theorem submit_records_and_assigns_witness :
    (alookup "x" (submit_answer_room ansRoomEx "x" 4 "C").room.player_answers
        = some ((padAnswers ((alookup "x" ansRoomEx.player_answers).getD []) 4).set 4
            (some "C"))) ∧
    ((padAnswers ((alookup "x" ansRoomEx.player_answers).getD []) 4).set 4
        (some "C")).length = 5 ∧
    ((((padAnswers ((alookup "x" ansRoomEx.player_answers).getD []) 4).set 4
        (some "C")).map (fun o => o.getD "")).mapM parseLetter
      = some [Letter.A, Letter.A, Letter.B, Letter.B, Letter.C]) ∧
    ((submit_answer_room ansRoomEx "x" 4 "C").roleAssigned
        = some (calculate_role [Letter.A, Letter.A, Letter.B, Letter.B, Letter.C]) ∧
      alookup "x" (submit_answer_room ansRoomEx "x" 4 "C").room.player_roles
        = some (calculate_role [Letter.A, Letter.A, Letter.B, Letter.B, Letter.C])) ∧
    (handle_submit_answer ansStateEx "c1" 4 "C").2
      = [Out.reply "c1" "submit_answer_response", Out.reply "c1" "role_assigned"] :=
  ⟨(submit_records_and_assigns.1 ansRoomEx "x" 4 "C").1,
   by decide,
   by decide,
   submit_records_and_assigns.2.1 ansRoomEx "x" 4 "C"
     [Letter.A, Letter.A, Letter.B, Letter.B, Letter.C] (by decide) (by decide),
   (submit_records_and_assigns.2.2 ansStateEx "c1" "x" "R4" false ansRoomEx 4 "C"
     (calculate_role [Letter.A, Letter.A, Letter.B, Letter.B, Letter.C])
     (by rfl) (by decide) (by rfl) (by rfl)).1⟩

end CrownFight
